import Mathlib

/-!
Verification of the auto_trade futures trading engine.

This file gives a shallow embedding, in Lean, of the parts of the
`auto_trade` repository that the verified properties talk about:

* `utils/points.py`            → `calculate_points`
* `models/position_record.py`  → `ExitReason` (the enum actually imported by
                                 the engine and the position manager)
* `models/position.py`         → `ExitRule`, `PositionLeg`, `ManagedPosition`,
                                 `OrderAction`, `ManagedPosition.close_leg`
* `services/position_manager.py` → `PositionManagerConfig`, `PositionManager`
                                 (`on_signal`, `on_price_update`, `on_fill`,
                                 `_open_position`, `_update_trailing_stops`,
                                 `_check_leg_exit`, `_check_macd_fast_stop`,
                                 `_close_all_legs`, `_get_trailing_stop_points`)
* `executors/backtest_executor.py` → `executeBacktest`
* `engines/backtest_engine.py` → `calculateFillPrice` (`_calculate_fill_price`)
                                 and the deferred-entry step of
                                 `_run_single_unit`
* `strategies/orb_strategy.py` → the `override_take_profit_points`
                                 computation of `_build_entry_metadata` and
                                 `_compute_key_level_tp`

Modelling conventions:

* Python `int` prices are `Int`; Python `float` parameters are `ℚ` (the
  counterexamples below only use values that are exactly representable as
  binary floats, so the rational model agrees with the float source there).
* Python `int(x)` (truncation toward zero) is `pyInt`.
* Python `datetime` values are opaque timestamps modelled as `Nat`.
* `uuid.uuid4()` and `datetime.now()` are nondeterministic inputs of the
  source; the embedding takes them as explicit parameters.
* Dictionary metadata is modelled by records of `Option` fields, with
  `dict.get(k, d)` becoming `Option.getD`; Python's `x or d` idiom becomes
  `pyOrInt`.
* The MACD / candle-strength indicator arithmetic lives in
  `services/indicator_service.py` and is treated by the specification as an
  external pure collaborator; its boolean verdicts (`check_death_cross`,
  `check_golden_cross`, `_check_momentum_exhaustion`) enter the embedding as
  oracle inputs (`FastOracle`).  Everything the position manager does with
  those verdicts is embedded faithfully.
* Attribute accesses that do not resolve in the source — the engine and the
  position manager import `ExitReason` from `models/position_record.py`,
  whose enum has only `TS/TP/SL/Hold/FS`, yet mention
  `ExitReason.TIME_EXIT` and `ExitReason.MOMENTUM_EXIT` — are modelled as
  `Except.error "AttributeError: ..."`, which is what CPython raises there.
-/

namespace AutoTrade

/-- Python `int(x)`: truncation toward zero of a rational. -/
def pyInt (q : ℚ) : Int := Int.tdiv q.num (q.den : Int)

/-- Python's `x or d` for optional ints (`None` and `0` are falsy). -/
def pyOrInt (x : Option Int) (d : Int) : Int :=
  match x with
  | none => d
  | some v => if v = 0 then d else v

/-- Order side, `models/account.py` `Action`. -/
inductive Action
  | Buy
  | Sell
deriving Repr, DecidableEq

/-- Signal kind, `models/strategy.py` `SignalType`. -/
inductive SignalType
  | ENTRY_LONG
  | ENTRY_SHORT
  | EXIT
  | HOLD
deriving Repr, DecidableEq

/-- Exit reason, `models/position_record.py` `ExitReason` — the enum imported
by `backtest_engine.py` and `position_manager.py`.  Its members are only
`TRAILING_STOP ("TS")`, `TAKE_PROFIT ("TP")`, `STOP_LOSS ("SL")`,
`HOLD ("Hold")` and `FAST_STOP ("FS")`; it has no `TIME_EXIT` or
`MOMENTUM_EXIT` member (those names are referenced by the engine code but
exist in no enum of the repository; `models/exit_reason.py` defines a second,
unused `ExitReason` that also lacks them). -/
inductive ExitReason
  | TRAILING_STOP
  | TAKE_PROFIT
  | STOP_LOSS
  | HOLD
  | FAST_STOP
deriving Repr, DecidableEq

/-- String value of an `ExitReason` member (`.value` in Python). -/
def ExitReason.val : ExitReason → String
  | .TRAILING_STOP => "TS"
  | .TAKE_PROFIT => "TP"
  | .STOP_LOSS => "SL"
  | .HOLD => "Hold"
  | .FAST_STOP => "FS"

/-- Source `utils/points.py` `calculate_points`: fixed points or rate × reference. -/
def calculate_points (base_points : Int) (rate : Option ℚ)
    (reference_price : Option ℚ) : Int :=
  match rate, reference_price with
  | some r, some p => pyInt (p * r)
  | _, _ => base_points

/-- Source `engines/backtest_engine.py` `BacktestEngine._calculate_fill_price`.
The final branch of the source reads `ExitReason.TIME_EXIT`, a member the
imported enum does not have, so reaching it raises `AttributeError`. -/
def calculateFillPrice (exit_reason : ExitReason) (trigger_price : Option Int)
    (kbar_open kbar_high kbar_low kbar_close : Int) (is_long : Bool) :
    Except String Int :=
  if exit_reason = .FAST_STOP then .ok kbar_open
  else
    match trigger_price with
    | none => .ok kbar_close
    | some trigger =>
      if exit_reason = .TAKE_PROFIT then
        if is_long then
          if trigger ≤ kbar_open then .ok kbar_open else .ok trigger
        else
          if kbar_open ≤ trigger then .ok kbar_open else .ok trigger
      else if exit_reason = .STOP_LOSS ∨ exit_reason = .TRAILING_STOP then
        if is_long then
          if kbar_open ≤ trigger then .ok kbar_open else .ok trigger
        else
          if trigger ≤ kbar_open then .ok kbar_open else .ok trigger
      else
        .error "AttributeError: TIME_EXIT"

/-- One order command, `models/position.py` `OrderAction`; the metadata dict
is flattened to the three keys the engine uses. -/
structure OrderAction where
  action : Action
  symbol : String
  sub_symbol : String
  quantity : Int
  order_type : String
  reason : String := ""
  leg_id : Option String := none
  meta_exit_reason : Option String := none
  meta_trigger_price : Option Int := none
  meta_leg_ids : Option (List String) := none
deriving Repr, DecidableEq

/-- Source `executors/base_executor.py` `FillResult`. -/
structure FillResult where
  success : Bool
  fill_price : Option Int
  fill_time : Nat
  fill_quantity : Int
deriving Repr, DecidableEq

/-- Source `executors/backtest_executor.py` `BacktestExecutor.execute`, with the
executor's state (`slippage_points`, `_simulated_price`, `_simulated_time`)
passed explicitly.  Note the slippage adjustment is applied to every order,
entries and exits alike. -/
def executeBacktest (slippage_points simulated_price : Int)
    (simulated_time : Nat) (order_action : OrderAction) : FillResult :=
  { success := true
    fill_price := some (if order_action.action = .Buy then
        simulated_price + slippage_points
      else
        simulated_price - slippage_points)
    fill_time := simulated_time
    fill_quantity := order_action.quantity }

/-- Leg / position state, `models/position.py` `PositionStatus`. -/
inductive PositionStatus
  | Open
  | Closed
  | PartiallyClosed
deriving Repr, DecidableEq

/-- Leg kind, `models/position.py` `LegType`. -/
inductive LegType
  | TAKE_PROFIT
  | TRAILING_STOP
deriving Repr, DecidableEq

/-- Per-leg exit rules, `models/position.py` `ExitRule`. -/
structure ExitRule where
  stop_loss_price : Option Int := none
  take_profit_price : Option Int := none
  trailing_stop_active : Bool := false
  start_trailing_stop_price : Option Int := none
  trailing_stop_price : Option Int := none
  tighten_after_price : Option Int := none
  tightened_trailing_stop_points : Option Int := none
  is_tightened : Bool := false
deriving Repr, DecidableEq

/-- One leg of a position, `models/position.py` `PositionLeg`. -/
structure PositionLeg where
  leg_id : String
  leg_type : LegType
  quantity : Int
  exit_rule : ExitRule
  status : PositionStatus := .Open
  exit_price : Option Int := none
  exit_time : Option Nat := none
  exit_reason : Option ExitReason := none
deriving Repr, DecidableEq

/-- Whether a leg is currently open. -/
def PositionLeg.isOpen (leg : PositionLeg) : Bool := leg.status = .Open

/-- The slice of the position-level metadata dict that
`services/position_manager.py` reads and writes (string keys flattened to
optional fields; `dict.get(k, d)` becomes `Option.getD`). -/
structure PosMetadata where
  override_trailing_stop_points : Option Int := none
  key_levels : Option (List Int) := none
  key_level_buffer : Option Int := none
  next_key_level_idx : Option Nat := none
  key_level_min_profit : Option Int := none
  use_momentum_exit : Bool := false
  momentum_min_profit : Option Int := none
  momentum_lookback : Option Int := none
  momentum_weak_threshold : Option ℚ := none
  momentum_min_weak_bars : Option Int := none
deriving Repr, DecidableEq

/-- A managed position, `models/position.py` `ManagedPosition`. -/
structure ManagedPosition where
  position_id : String
  symbol : String
  sub_symbol : String
  direction : Action
  total_quantity : Int
  entry_price : Int
  entry_time : Nat
  status : PositionStatus := .Open
  legs : List PositionLeg := []
  highest_price : Int := 0
  lowest_price : Int := 999999
  is_in_macd_adverse_cross : Bool := false
  is_buy_back : Bool := false
  metadata : PosMetadata := {}
deriving Repr, DecidableEq

/-- Source `ManagedPosition.open_legs`. -/
def ManagedPosition.open_legs (p : ManagedPosition) : List PositionLeg :=
  p.legs.filter PositionLeg.isOpen

/-- Source `ManagedPosition.update_price_tracking`. -/
def ManagedPosition.update_price_tracking (p : ManagedPosition)
    (current_price : Int) : ManagedPosition :=
  { p with
    highest_price := if p.highest_price < current_price then current_price
      else p.highest_price
    lowest_price := if current_price < p.lowest_price then current_price
      else p.lowest_price }

/-- Helper for `ManagedPosition.close_leg`: close the first open leg whose
id matches (the Python loop `break`s after the first hit). -/
def closeFirstMatch (lid : String) (xp : Int) (xt : Nat) (xr : ExitReason) :
    List PositionLeg → List PositionLeg
  | [] => []
  | leg :: rest =>
    if leg.leg_id = lid ∧ leg.status = .Open then
      { leg with
        status := .Closed
        exit_price := some xp
        exit_time := some xt
        exit_reason := some xr } :: rest
    else
      leg :: closeFirstMatch lid xp xt xr rest

/-- Source `models/position.py` `ManagedPosition.close_leg`: close the named open
leg (if any) and re-derive the position status. -/
def ManagedPosition.close_leg (p : ManagedPosition) (lid : String) (xp : Int)
    (xt : Nat) (xr : ExitReason) : ManagedPosition :=
  let p1 : ManagedPosition := { p with legs := closeFirstMatch lid xp xt xr p.legs }
  if p1.open_legs = [] then { p1 with status := .Closed }
  else if p1.open_legs.length < p1.legs.length then
    { p1 with status := .PartiallyClosed }
  else p1

/-- A bar, `models/market.py` `KBar` (prices and volume are floats in the
source, modelled as rationals; the time stamp is opaque). -/
structure KBar where
  time : Nat
  open_ : ℚ
  high : ℚ
  low : ℚ
  close : ℚ
  volume : ℚ := 0
deriving Repr, DecidableEq

/-- Signal metadata, the override keys of the strategy→PM channel that
`_open_position` consumes (`models/strategy.py` `StrategySignal.metadata`). -/
structure SignalMetadata where
  override_stop_loss_price : Option Int := none
  override_stop_loss_distance : Option Int := none
  override_take_profit_points : Option Int := none
  override_start_trailing_stop_points : Option Int := none
  override_trailing_stop_points : Option Int := none
  key_levels : Option (List Int) := none
  key_level_buffer : Option Int := none
  key_level_min_profit : Option Int := none
  use_momentum_exit : Bool := false
  momentum_min_profit : Option Int := none
  momentum_lookback : Option Int := none
  momentum_weak_threshold : Option ℚ := none
  momentum_min_weak_bars : Option Int := none
deriving Repr, DecidableEq

/-- A strategy signal, `models/strategy.py` `StrategySignal`. -/
structure StrategySignal where
  signal_type : SignalType
  symbol : String
  price : ℚ
  reason : String := ""
  metadata : SignalMetadata := {}
deriving Repr, DecidableEq

/-- Source `services/position_manager.py` `PositionManagerConfig` attributes (the
same record doubles as the argument list of `__init__`; `force_exit_time`
is an optional `(hour, minute)` pair). -/
structure PositionManagerConfig where
  total_quantity : Int := 4
  tp_leg_quantity : Int := 2
  ts_leg_quantity : Int := 2
  stop_loss_points : Int := 50
  stop_loss_points_rate : Option ℚ := none
  take_profit_points : Int := 500
  take_profit_points_rate : Option ℚ := none
  start_trailing_stop_points : Int := 200
  trailing_stop_points : Int := 200
  trailing_stop_points_rate : Option ℚ := none
  tighten_after_points : Option Int := none
  tighten_after_points_rate : Option ℚ := none
  tightened_trailing_stop_points : Option Int := none
  tightened_trailing_stop_points_rate : Option ℚ := none
  timeframe : String := "30m"
  enable_macd_fast_stop : Bool := true
  force_exit_time : Option (Nat × Nat) := none
deriving Repr, DecidableEq

/-- Source `PositionManagerConfig.__init__`: the only validation is the leg-sum
check, which raises `ValueError` on mismatch. -/
def mkPositionManagerConfig (a : PositionManagerConfig) :
    Except String PositionManagerConfig :=
  if a.tp_leg_quantity + a.ts_leg_quantity ≠ a.total_quantity then
    .error "ValueError: leg quantity mismatch"
  else
    .ok a

/-- Whether an `Except` construction succeeded. -/
def isOkE {α : Type} (e : Except String α) : Bool :=
  match e with
  | .ok _ => true
  | .error _ => false

/-- Source `PositionManagerConfig.has_tightened_trailing_stop`. -/
def PositionManagerConfig.has_tightened_trailing_stop
    (c : PositionManagerConfig) : Bool :=
  (c.tighten_after_points.isSome || c.tighten_after_points_rate.isSome) &&
    (c.tightened_trailing_stop_points.isSome ||
      c.tightened_trailing_stop_points_rate.isSome)

/-- The `PositionManager` state: its config, the held position, and the
fast-stop dedup timestamp (`_last_fast_stop_check_kbar_time`). -/
structure PositionManager where
  config : PositionManagerConfig
  position : Option ManagedPosition := none
  last_fast_stop_check_kbar_time : Option Nat := none
deriving Repr, DecidableEq

/-- Source `PositionManager.has_position`. -/
def hasPosition (pm : PositionManager) : Bool :=
  match pm.position with
  | none => false
  | some p => p.status ≠ .Closed

/-- Minimum of a list of rationals (`min(...)` over a nonempty Python
generator; `none` on the empty list, where Python would raise). -/
def qMin : List ℚ → Option ℚ
  | [] => none
  | x :: xs => some (xs.foldl min x)

/-- Maximum of a list of rationals. -/
def qMax : List ℚ → Option ℚ
  | [] => none
  | x :: xs => some (xs.foldl max x)

/-- Source `PositionManager._calculate_initial_stop_loss`: extreme of the last 31
bars stepped away by the stop-loss points, falling back to an entry-relative
stop when fewer than 31 bars are available (or when the extreme computation
raises, mirrored by the `none` branches). -/
def calculateInitialStopLoss (cfg : PositionManagerConfig)
    (kbars : List KBar) (entry_price : Int) (is_long : Bool) : Int :=
  let slp := calculate_points cfg.stop_loss_points cfg.stop_loss_points_rate
    (some (entry_price : ℚ))
  let fallback := if is_long then entry_price - slp else entry_price + slp
  if 31 ≤ kbars.length then
    let window := kbars.drop (kbars.length - 31)
    if is_long then
      match qMin (window.map KBar.low) with
      | some m => pyInt m - slp
      | none => fallback
    else
      match qMax (window.map KBar.high) with
      | some m => pyInt m + slp
      | none => fallback
  else
    fallback

/-- Source `PositionManager._open_position`: resolve the stop-loss, take-profit and
trailing-activation prices (honoring the signal-metadata overrides), build
the TP/TS legs, persist strategy metadata onto the position, and emit one
`Open` order.  `uuid.uuid4()[:8]` and `datetime.now()` are the explicit
`pid` / `now` parameters. -/
def openPosition (pm : PositionManager) (signal : StrategySignal)
    (kbars : List KBar) (symbol sub_symbol : String) (direction : Action)
    (now : Nat) (pid : String) : List OrderAction × PositionManager :=
  let cfg := pm.config
  let entry_price := pyInt signal.price
  let is_long := direction = .Buy
  let meta := signal.metadata
  let stop_loss_price :=
    match meta.override_stop_loss_price with
    | some p => p
    | none =>
      match meta.override_stop_loss_distance with
      | some d => if is_long then entry_price - d else entry_price + d
      | none => calculateInitialStopLoss cfg kbars entry_price is_long
  let tp_pts :=
    match meta.override_take_profit_points with
    | some p => p
    | none => calculate_points cfg.take_profit_points
        cfg.take_profit_points_rate (some (entry_price : ℚ))
  let take_profit_price :=
    if is_long then entry_price + tp_pts else entry_price - tp_pts
  let start_ts_pts :=
    meta.override_start_trailing_stop_points.getD cfg.start_trailing_stop_points
  let start_trailing_stop_price :=
    if is_long then entry_price + start_ts_pts else entry_price - start_ts_pts
  -- staged-tightening parameters; inside the guard the `getD 0` bases are
  -- unreachable unless the corresponding rate is set (see the guard), which
  -- matches `calculate_points` ignoring its base when a rate is present
  let tighten_after_price : Option Int :=
    if cfg.has_tightened_trailing_stop then
      let pts := calculate_points (cfg.tighten_after_points.getD 0)
        cfg.tighten_after_points_rate (some (entry_price : ℚ))
      some (if is_long then entry_price + pts else entry_price - pts)
    else none
  let tightened_ts_points : Option Int :=
    if cfg.has_tightened_trailing_stop then
      some (calculate_points (cfg.tightened_trailing_stop_points.getD 0)
        cfg.tightened_trailing_stop_points_rate (some (entry_price : ℚ)))
    else none
  let tpLegs : List PositionLeg :=
    if 0 < cfg.tp_leg_quantity then
      [{ leg_id := pid ++ "-TP"
         leg_type := .TAKE_PROFIT
         quantity := cfg.tp_leg_quantity
         exit_rule := {
           stop_loss_price := some stop_loss_price
           take_profit_price := some take_profit_price
           start_trailing_stop_price := some start_trailing_stop_price
           tighten_after_price := tighten_after_price
           tightened_trailing_stop_points := tightened_ts_points } }]
    else []
  let tsLegs : List PositionLeg :=
    if 0 < cfg.ts_leg_quantity then
      [{ leg_id := pid ++ "-TS"
         leg_type := .TRAILING_STOP
         quantity := cfg.ts_leg_quantity
         exit_rule := {
           stop_loss_price := some stop_loss_price
           start_trailing_stop_price := some start_trailing_stop_price
           tighten_after_price := tighten_after_price
           tightened_trailing_stop_points := tightened_ts_points } }]
    else []
  let pmeta : PosMetadata :=
    { override_trailing_stop_points := meta.override_trailing_stop_points
      key_levels := meta.key_levels
      key_level_buffer :=
        if meta.key_levels.isSome then some (meta.key_level_buffer.getD 10)
        else none
      next_key_level_idx := if meta.key_levels.isSome then some 0 else none
      key_level_min_profit :=
        if meta.key_levels.isSome then meta.key_level_min_profit else none
      use_momentum_exit := meta.use_momentum_exit
      momentum_min_profit :=
        if meta.use_momentum_exit then some (meta.momentum_min_profit.getD 0)
        else none
      momentum_lookback :=
        if meta.use_momentum_exit then some (meta.momentum_lookback.getD 5)
        else none
      momentum_weak_threshold :=
        if meta.use_momentum_exit then
          some (meta.momentum_weak_threshold.getD (45 / 100))
        else none
      momentum_min_weak_bars :=
        if meta.use_momentum_exit then
          some (meta.momentum_min_weak_bars.getD 3)
        else none }
  let pos : ManagedPosition :=
    { position_id := pid
      symbol := symbol
      sub_symbol := sub_symbol
      direction := direction
      total_quantity := cfg.total_quantity
      entry_price := entry_price
      entry_time := now
      legs := tpLegs ++ tsLegs
      highest_price := entry_price
      lowest_price := entry_price
      metadata := pmeta }
  ([{ action := direction
      symbol := symbol
      sub_symbol := sub_symbol
      quantity := cfg.total_quantity
      order_type := "Open"
      reason := signal.reason }],
   { pm with position := some pos })

/-- Source `PositionManager.on_signal`: open on `ENTRY_LONG`/`ENTRY_SHORT` when no
position is held, otherwise do nothing. -/
def onSignal (pm : PositionManager) (signal : StrategySignal)
    (kbars : List KBar) (symbol sub_symbol : String) (now : Nat)
    (pid : String) : List OrderAction × PositionManager :=
  if signal.signal_type = .ENTRY_LONG ∧ hasPosition pm = false then
    openPosition pm signal kbars symbol sub_symbol .Buy now pid
  else if signal.signal_type = .ENTRY_SHORT ∧ hasPosition pm = false then
    openPosition pm signal kbars symbol sub_symbol .Sell now pid
  else
    ([], pm)

/-- Source `PositionManager.on_fill`: close the named leg; if the position is now
fully closed, drop it and reset the fast-stop dedup timestamp. -/
def onFill (pm : PositionManager) (lid : String) (fill_price : Int)
    (fill_time : Nat) (er : ExitReason) : PositionManager :=
  match pm.position with
  | none => pm
  | some pos =>
    let pos1 := pos.close_leg lid fill_price fill_time er
    if pos1.status = .Closed then
      { pm with position := none, last_fast_stop_check_kbar_time := none }
    else
      { pm with position := some pos1 }

/-- Whether a direction is long (`direction == Action.Buy`). -/
def isLongDir (a : Action) : Bool := a = .Buy

/-- The closing order side (`PositionManager._close_action`). -/
def closeActionOf (is_long : Bool) : Action := if is_long then .Sell else .Buy

/-- String value of a `LegType` member. -/
def LegType.val : LegType → String
  | .TAKE_PROFIT => "TP"
  | .TRAILING_STOP => "TS"

/-- The guarded trailing-stop assignment used throughout
`_update_trailing_stops`: commit the new stop only when there is no stop yet
or the new one is strictly closer to the market (higher for long, lower for
short). -/
def guardedStop (is_long : Bool) (new_stop : Int) (cur : Option Int) :
    Option Int :=
  match cur with
  | none => some new_stop
  | some c =>
    if is_long then
      if c < new_stop then some new_stop else some c
    else
      if new_stop < c then some new_stop else some c

/-- One broken key level: activate trailing on every open leg and re-anchor
its stop to `level ∓ buffer` (guarded). -/
def markKeyLevelCross (is_long : Bool) (buffer lv : Int)
    (legs : List PositionLeg) : List PositionLeg :=
  let stop_price := if is_long then lv - buffer else lv + buffer
  legs.map fun leg =>
    if leg.status = .Open then
      { leg with exit_rule := { leg.exit_rule with
          trailing_stop_active := true
          trailing_stop_price :=
            guardedStop is_long stop_price leg.exit_rule.trailing_stop_price } }
    else leg

/-- The `while idx < len(key_levels)` loop of `_update_trailing_stops`,
run on the suffix of still-unbroken levels; returns the advanced cursor and
the updated legs. -/
def crossKeyLevels (is_long : Bool) (buffer price : Int) :
    List Int → Nat → List PositionLeg → Nat × List PositionLeg
  | [], idx, legs => (idx, legs)
  | lv :: rest, idx, legs =>
    if (if is_long then lv < price else price < lv) then
      crossKeyLevels is_long buffer price rest (idx + 1)
        (markKeyLevelCross is_long buffer lv legs)
    else
      (idx, legs)

/-- Source `PositionManager._get_trailing_stop_points`: tightened distance once
tightened, else the position-metadata override, else the configured fixed or
rate-based distance. -/
def getTrailingStopPoints (cfg : PositionManagerConfig)
    (pos : ManagedPosition) (er : ExitRule) : Int :=
  match er.is_tightened, er.tightened_trailing_stop_points with
  | true, some t => t
  | _, _ =>
    match pos.metadata.override_trailing_stop_points with
    | some o => o
    | none =>
      calculate_points cfg.trailing_stop_points cfg.trailing_stop_points_rate
        (some (pos.entry_price : ℚ))

/-- The standard (non-key-level) per-leg step of `_update_trailing_stops`:
activation, staged tightening, and the regular guarded update. -/
def stdTrailingUpdate (cfg : PositionManagerConfig) (pos : ManagedPosition)
    (is_long : Bool) (price : Int) (leg : PositionLeg) : PositionLeg :=
  let er := leg.exit_rule
  match er.start_trailing_stop_price with
  | none => leg
  | some start_p =>
    if er.trailing_stop_active = false then
      let should_activate :=
        if is_long then start_p ≤ price else price ≤ start_p
      if should_activate then
        let ts_points := getTrailingStopPoints cfg pos er
        { leg with exit_rule := { er with
            trailing_stop_active := true
            trailing_stop_price :=
              some (if is_long then price - ts_points else price + ts_points) } }
      else leg
    else
      let regular : PositionLeg :=
        let ts_points := getTrailingStopPoints cfg pos er
        { leg with exit_rule := { er with
            trailing_stop_price :=
              guardedStop is_long
                (if is_long then price - ts_points else price + ts_points)
                er.trailing_stop_price } }
      match er.is_tightened, er.tighten_after_price,
          er.tightened_trailing_stop_points with
      | false, some tap, some tpts =>
        let should_tighten := if is_long then tap ≤ price else price ≤ tap
        if should_tighten then
          { leg with exit_rule := { er with
              is_tightened := true
              trailing_stop_price :=
                guardedStop is_long
                  (if is_long then price - tpts else price + tpts)
                  er.trailing_stop_price } }
        else regular
      | _, _, _ => regular

/-- Source `PositionManager._update_trailing_stops`: key-level trailing (with the
minimum-profit gate and the post-levels dynamic `⌊entry × 0.005⌋` distance)
when `key_levels` metadata is present, else the standard per-leg update. -/
def updateTrailingStops (cfg : PositionManagerConfig)
    (pos : ManagedPosition) (price : Int) : ManagedPosition :=
  let is_long := isLongDir pos.direction
  let key_levels : Option (List Int) :=
    match pos.metadata.key_levels with
    | none => none
    | some kls =>
      let min_profit := pos.metadata.key_level_min_profit.getD 0
      if 0 < min_profit then
        let unrealized :=
          if is_long then price - pos.entry_price else pos.entry_price - price
        if unrealized < min_profit then none else some kls
      else some kls
  match key_levels with
  | some kls =>
    let idx0 := pos.metadata.next_key_level_idx.getD 0
    let buffer := pos.metadata.key_level_buffer.getD 10
    let res := crossKeyLevels is_long buffer price (kls.drop idx0) idx0 pos.legs
    let pos1 : ManagedPosition :=
      { pos with
        legs := res.2
        metadata := { pos.metadata with next_key_level_idx := some res.1 } }
    if res.1 < kls.length then pos1
    else
      let dyn := pyInt ((pos1.entry_price : ℚ) * (5 / 1000))
      { pos1 with legs := pos1.legs.map fun leg =>
          if leg.status = .Open ∧ leg.exit_rule.trailing_stop_active = true then
            { leg with exit_rule := { leg.exit_rule with
                trailing_stop_price :=
                  guardedStop is_long
                    (if is_long then price - dyn else price + dyn)
                    leg.exit_rule.trailing_stop_price } }
          else leg }
  | none =>
    { pos with legs := pos.legs.map fun leg =>
        if leg.status = .Open then stdTrailingUpdate cfg pos is_long price leg
        else leg }

/-- Source `PositionManager._check_leg_exit`: stop-loss, then trailing stop, then
take-profit (TP legs only); only the first hit fires. -/
def checkLegExit (pos : ManagedPosition) (is_long : Bool)
    (current_price : Int) (leg : PositionLeg) : Option OrderAction :=
  if leg.status ≠ .Open then none
  else
    let er := leg.exit_rule
    let slHit :=
      match er.stop_loss_price with
      | some sl =>
        if is_long then decide (current_price ≤ sl)
        else decide (sl ≤ current_price)
      | none => false
    if slHit then
      some { action := closeActionOf is_long
             symbol := pos.symbol
             sub_symbol := pos.sub_symbol
             quantity := leg.quantity
             order_type := "Close"
             reason := leg.leg_type.val ++ " Stop Loss"
             leg_id := some leg.leg_id
             meta_exit_reason := some "SL"
             meta_trigger_price := er.stop_loss_price }
    else
      let tsHit :=
        er.trailing_stop_active &&
          match er.trailing_stop_price with
          | some ts =>
            if is_long then decide (current_price ≤ ts)
            else decide (ts ≤ current_price)
          | none => false
      if tsHit then
        some { action := closeActionOf is_long
               symbol := pos.symbol
               sub_symbol := pos.sub_symbol
               quantity := leg.quantity
               order_type := "Close"
               reason := "Trailing Stop"
               leg_id := some leg.leg_id
               meta_exit_reason := some "TS"
               meta_trigger_price := er.trailing_stop_price }
      else
        let tpHit :=
          decide (leg.leg_type = .TAKE_PROFIT) &&
            match er.take_profit_price with
            | some tp =>
              if is_long then decide (tp ≤ current_price)
              else decide (current_price ≤ tp)
            | none => false
        if tpHit then
          some { action := closeActionOf is_long
                 symbol := pos.symbol
                 sub_symbol := pos.sub_symbol
                 quantity := leg.quantity
                 order_type := "Close"
                 reason := "Take Profit"
                 leg_id := some leg.leg_id
                 meta_exit_reason := some "TP"
                 meta_trigger_price := er.take_profit_price }
        else none

/-- Source `PositionManager._close_all_legs`: one combined `Close` order for all
open legs, carrying the reason value and the leg-id list in metadata. -/
def closeAllLegs (pos : ManagedPosition) (is_long : Bool) (xr : ExitReason) :
    List OrderAction :=
  let total := (pos.open_legs.map PositionLeg.quantity).sum
  if 0 < total then
    [{ action := closeActionOf is_long
       symbol := pos.symbol
       sub_symbol := pos.sub_symbol
       quantity := total
       order_type := "Close"
       reason := "Close all: " ++ xr.val
       meta_exit_reason := some xr.val
       meta_leg_ids := some (pos.open_legs.map PositionLeg.leg_id) }]
  else []

/-- The external-indicator verdicts consumed by one `on_price_update` call:
the length and latest-bar timestamp of the supplied bar sequence, the MACD
cross verdicts of `IndicatorService.check_death_cross` /
`check_golden_cross` on it, and the verdict of
`_check_momentum_exhaustion` (whose candle-strength arithmetic the
specification treats as an external pure collaborator; its only state effect
is a private dedup timestamp read by nothing the claims mention). -/
structure FastOracle where
  kbars_len : Nat
  latest_time : Nat
  is_death_cross : Bool
  is_golden_cross : Bool
  momentum_fire : Bool := false
deriving Repr, DecidableEq

/-- Source `PositionManager._check_macd_fast_stop`, with the MACD cross verdicts
supplied by the oracle.  Returns (fired, position, dedup timestamp). -/
def checkMacdFastStop (cfg : PositionManagerConfig) (pos : ManagedPosition)
    (lastCheck : Option Nat) (current_price : Int) (o : FastOracle) :
    Bool × ManagedPosition × Option Nat :=
  let is_long := isLongDir pos.direction
  let current_profit :=
    if is_long then current_price - pos.entry_price
    else pos.entry_price - current_price
  let stop_loss_threshold :=
    calculate_points cfg.stop_loss_points cfg.stop_loss_points_rate
      (some (pos.entry_price : ℚ))
  if o.kbars_len < 35 then (false, pos, lastCheck)
  else if lastCheck = some o.latest_time then (false, pos, lastCheck)
  else
    let lastCheck' := some o.latest_time
    let any_trailing_active :=
      pos.open_legs.any fun leg => leg.exit_rule.trailing_stop_active
    if pos.is_in_macd_adverse_cross ∧ any_trailing_active = false ∧
        current_profit < -stop_loss_threshold then
      (true, pos, lastCheck')
    else
      let is_adverse_cross :=
        if is_long then o.is_death_cross else o.is_golden_cross
      let is_favorable_cross :=
        if is_long then o.is_golden_cross else o.is_death_cross
      if is_adverse_cross then
        let pos' := { pos with is_in_macd_adverse_cross := true }
        if any_trailing_active = false ∧
            current_profit < -stop_loss_threshold then
          (true, pos', lastCheck')
        else
          (false, pos', lastCheck')
      else if is_favorable_cross then
        (false, { pos with is_in_macd_adverse_cross := false }, lastCheck')
      else
        (false, pos, lastCheck')

/-- The fast-stop gate of `on_price_update`: the check runs only when
`enable_macd_fast_stop` is set and a bar sequence (oracle) is supplied. -/
def fastStopStep (pm : PositionManager) (pos : ManagedPosition)
    (current_price : Int) (o : Option FastOracle) :
    Bool × ManagedPosition × Option Nat :=
  match o with
  | some orc =>
    if pm.config.enable_macd_fast_stop then
      checkMacdFastStop pm.config pos pm.last_fast_stop_check_kbar_time
        current_price orc
    else (false, pos, pm.last_fast_stop_check_kbar_time)
  | none => (false, pos, pm.last_fast_stop_check_kbar_time)

/-- The body of `on_price_update` once a live position is in hand. -/
def onPriceUpdateWith (pm : PositionManager) (pos0 : ManagedPosition)
    (current_price : Int) (o : Option FastOracle) :
    Except String (List OrderAction × PositionManager) :=
  let pos := pos0.update_price_tracking current_price
  let is_long := isLongDir pos.direction
  let fs := fastStopStep pm pos current_price o
  if fs.1 then
    .ok (closeAllLegs fs.2.1 is_long .FAST_STOP,
      { pm with
        position := some fs.2.1
        last_fast_stop_check_kbar_time := fs.2.2 })
  else
    let momentum :=
      match o with
      | some orc => orc.momentum_fire
      | none => false
    if momentum then .error "AttributeError: MOMENTUM_EXIT"
    else
      let acts := (fs.2.1.open_legs).filterMap
        (checkLegExit fs.2.1 is_long current_price)
      let pos2 := updateTrailingStops pm.config fs.2.1 current_price
      .ok (acts,
        { pm with
          position := some pos2
          last_fast_stop_check_kbar_time := fs.2.2 })

/-- Source `PositionManager.on_price_update`: track the price, run the fast-stop
check (when enabled and bars are supplied), the momentum-exhaustion check,
the per-leg exit checks, and the trailing-stop update.  A firing momentum
check evaluates `ExitReason.MOMENTUM_EXIT`, a member the imported enum does
not have, so it raises `AttributeError` (position_manager.py:289). -/
def onPriceUpdate (pm : PositionManager) (current_price : Int)
    (o : Option FastOracle) :
    Except String (List OrderAction × PositionManager) :=
  if hasPosition pm = false then .ok ([], pm)
  else
    match pm.position with
    | none => .ok ([], pm)
    | some pos0 => onPriceUpdateWith pm pos0 current_price o

/-- A sequence of `on_price_update` calls, propagating the first
`AttributeError` (the Python process would die there). -/
def runPriceUpdates :
    PositionManager → List (Int × Option FastOracle) →
      Except String PositionManager
  | pm, [] => .ok pm
  | pm, (p, o) :: rest =>
    match onPriceUpdate pm p o with
    | .error e => .error e
    | .ok (_, pm') => runPriceUpdates pm' rest

/-- Claim C9: `calculate_points` returns `int(reference_price * rate)`
whenever both a rate and a reference price are provided — the fixed
`base_points` argument then has no effect — and returns `int(base_points)`
exactly when the rate or the reference price is missing. -/
theorem calculate_points_rate_precedence (base base2 : Int) (r p : ℚ) :
    calculate_points base (some r) (some p) = pyInt (p * r) ∧
    calculate_points base (some r) (some p)
      = calculate_points base2 (some r) (some p) ∧
    calculate_points base none (some p) = base ∧
    calculate_points base (some r) none = base ∧
    calculate_points base none none = base := by
  refine ⟨rfl, rfl, rfl, rfl, rfl⟩

/-- Claim C1: the fill-price table of the backtest driver.  For the exit
reasons that exist on the imported enum the table of §4.5 holds
(`TakeProfit` long fills at `open` when `open ≥ trigger` else at `trigger`,
short mirrored; `StopLoss`/`TrailingStop` long fills at `open` when
`open ≤ trigger` else at `trigger`, short mirrored; `FastStop` fills at
`open`; a missing `trigger_price` fills at `close`).  But the claim's
`TimeExit`/`MomentumExit`/unknown-reason clause fails: the fall-through
branch evaluates `ExitReason.TIME_EXIT`, which the imported enum lacks, so
an unknown reason with a trigger price raises `AttributeError` instead of
filling at the close. -/
theorem fill_price_table (t o h l c : Int) (d : Bool) (r : ExitReason)
    (tr : Option Int) :
    calculateFillPrice .TAKE_PROFIT (some t) o h l c d
      = .ok (if d then (if t ≤ o then o else t)
             else (if o ≤ t then o else t)) ∧
    calculateFillPrice .STOP_LOSS (some t) o h l c d
      = .ok (if d then (if o ≤ t then o else t)
             else (if t ≤ o then o else t)) ∧
    calculateFillPrice .TRAILING_STOP (some t) o h l c d
      = .ok (if d then (if o ≤ t then o else t)
             else (if t ≤ o then o else t)) ∧
    calculateFillPrice .FAST_STOP tr o h l c d = .ok o ∧
    calculateFillPrice r none o h l c d
      = .ok (if r = .FAST_STOP then o else c) ∧
    calculateFillPrice .HOLD (some 100) 95 105 90 101 true
      = .error "AttributeError: TIME_EXIT" := by
  refine ⟨?_, ?_, ?_, rfl, ?_, rfl⟩
  · cases d <;> simp [calculateFillPrice] <;> split <;> simp
  · cases d <;> simp [calculateFillPrice] <;> split <;> simp
  · cases d <;> simp [calculateFillPrice] <;> split <;> simp
  · cases r <;> simp [calculateFillPrice]

/-- Claim C4's counterexample: with `slippage_points = 5` and the driver's
resolved exit price 100, the backtest executor returns a fill price of 95
for a closing `Sell` order — not the driver's price unchanged. -/
theorem exit_fill_slippage_counterexample :
    (executeBacktest 5 100 0
      { action := .Sell, symbol := "TX", sub_symbol := "TXF", quantity := 2,
        order_type := "Close" }).fill_price = some 95 ∧
    (some (95 : Int) ≠ some (100 : Int)) := by
  exact ⟨rfl, by decide⟩

/-- Claim C4 (amended): `execute` returns the driver-supplied simulated price
shifted by the configured slippage — minus `slippage_points` for a `Sell`
(closing a long), plus for a `Buy` (closing a short) — and therefore returns
the driver's resolved exit price unchanged exactly when
`slippage_points = 0`. -/
theorem exit_fill_is_sim_price_with_slippage (slip sim : Int) (t : Nat)
    (a : OrderAction) :
    (executeBacktest slip sim t a).fill_price
      = some (if a.action = .Buy then sim + slip else sim - slip) ∧
    (executeBacktest 0 sim t a).fill_price = some sim ∧
    (executeBacktest slip sim t a).success = true := by
  refine ⟨rfl, ?_, rfl⟩
  simp only [executeBacktest]
  split <;> simp

/-- Claim C7: `on_signal` with a `HOLD` signal, or with an `ENTRY_LONG` or
`ENTRY_SHORT` signal while a position is already held, emits no orders and
leaves the whole `PositionManager` state (position, legs, exit rules and
fast-stop bookkeeping) unchanged. -/
theorem on_signal_hold_noop (pm : PositionManager) (sig : StrategySignal)
    (kbars : List KBar) (symbol sub_symbol : String) (now : Nat)
    (pid : String)
    (h : sig.signal_type = .HOLD ∨
      ((sig.signal_type = .ENTRY_LONG ∨ sig.signal_type = .ENTRY_SHORT) ∧
        hasPosition pm = true)) :
    onSignal pm sig kbars symbol sub_symbol now pid = ([], pm) := by
  rcases h with h | ⟨h1, h2⟩
  · simp [onSignal, h]
  · rcases h1 with h1 | h1 <;> simp [onSignal, h1, h2]

/-- Witness for C7: a second `ENTRY_LONG` while a position is held is a
no-op. -/
theorem on_signal_hold_noop_witness :
    onSignal
      { config := {}
        position := some
          { position_id := "p1"
            symbol := "TX"
            sub_symbol := "TXF"
            direction := .Buy
            total_quantity := 4
            entry_price := 20000
            entry_time := 7
            legs := [{ leg_id := "p1-TS"
                       leg_type := .TRAILING_STOP
                       quantity := 4
                       exit_rule := { stop_loss_price := some 19950 } }] } }
      { signal_type := .ENTRY_LONG, symbol := "TX", price := 20100 }
      [] "TX" "TXF" 9 "p2"
      = ([],
         { config := {}
           position := some
             { position_id := "p1"
               symbol := "TX"
               sub_symbol := "TXF"
               direction := .Buy
               total_quantity := 4
               entry_price := 20000
               entry_time := 7
               legs := [{ leg_id := "p1-TS"
                          leg_type := .TRAILING_STOP
                          quantity := 4
                          exit_rule := { stop_loss_price := some 19950 } }] } }) :=
  on_signal_hold_noop _ _ _ _ _ _ _ (Or.inr ⟨Or.inl rfl, by decide⟩)

/-- Claim C8: building a `PositionManagerConfig` succeeds exactly when
`tp_leg_quantity + ts_leg_quantity = total_quantity`; any other quantity
split raises. -/
theorem config_leg_sum_validation (a : PositionManagerConfig) :
    isOkE (mkPositionManagerConfig a)
      = decide (a.tp_leg_quantity + a.ts_leg_quantity = a.total_quantity) ∧
    mkPositionManagerConfig a
      = (if a.tp_leg_quantity + a.ts_leg_quantity = a.total_quantity
         then .ok a
         else .error "ValueError: leg quantity mismatch") := by
  by_cases h : a.tp_leg_quantity + a.ts_leg_quantity = a.total_quantity <;>
    simp [mkPositionManagerConfig, isOkE, h]

/-- If one of the list's elements falsifies the predicate, filtering makes
the list strictly shorter. -/
theorem length_filter_lt_of_mem {α : Type} (p : α → Bool) :
    ∀ (l : List α) (a : α), a ∈ l → p a = false →
      (l.filter p).length < l.length := by
  intro l
  induction l with
  | nil => intro a ha; cases ha
  | cons b rest ih =>
    intro a ha hpa
    rcases List.mem_cons.mp ha with rfl | ha'
    · simp only [List.filter_cons, hpa, Bool.false_eq_true, if_neg,
        ite_false, List.length_cons]
      exact Nat.lt_succ_of_le (List.length_filter_le p rest)
    · cases hpb : p b <;>
        simp only [List.filter_cons, hpb, ite_true, ite_false,
          Bool.false_eq_true, List.length_cons]
      · exact Nat.lt_succ_of_lt (ih a ha' hpa)
      · exact Nat.succ_lt_succ (ih a ha' hpa)

/-- When no open leg carries the requested id, `closeFirstMatch` is the
identity. -/
theorem closeFirstMatch_no_match (lid : String) (xp : Int) (xt : Nat)
    (xr : ExitReason) (l : List PositionLeg)
    (h : ∀ leg ∈ l, leg.status = .Open → leg.leg_id ≠ lid) :
    closeFirstMatch lid xp xt xr l = l := by
  induction l with
  | nil => rfl
  | cons leg rest ih =>
    have hleg := h leg (List.mem_cons_self leg rest)
    have hne : ¬ (leg.leg_id = lid ∧ leg.status = .Open) := by
      rintro ⟨h1, h2⟩
      exact hleg h2 h1
    simp [closeFirstMatch, hne,
      ih (fun a ha => h a (List.mem_cons_of_mem leg ha))]

/-- Source `close_leg` with an id that matches no open leg leaves the position
unchanged, provided the stored status is consistent with the legs. -/
theorem close_leg_no_match (pos : ManagedPosition) (lid : String) (xp : Int)
    (xt : Nat) (xr : ExitReason)
    (hno : ∀ leg ∈ pos.legs, leg.status = .Open → leg.leg_id ≠ lid)
    (hopen : ∃ leg ∈ pos.legs, leg.status = .Open)
    (hpart : (∃ leg ∈ pos.legs, ¬ leg.status = .Open) →
      pos.status = .PartiallyClosed) :
    pos.close_leg lid xp xt xr = pos := by
  have h1 : closeFirstMatch lid xp xt xr pos.legs = pos.legs :=
    closeFirstMatch_no_match lid xp xt xr pos.legs hno
  have heta : ({ pos with legs := closeFirstMatch lid xp xt xr pos.legs } :
      ManagedPosition) = pos := by
    rw [h1]
  unfold ManagedPosition.close_leg
  rw [heta]
  obtain ⟨lo, hlo, hloOpen⟩ := hopen
  have hmem : lo ∈ pos.open_legs := by
    unfold ManagedPosition.open_legs
    refine List.mem_filter.mpr ⟨hlo, ?_⟩
    simp [PositionLeg.isOpen, hloOpen]
  have hne : pos.open_legs ≠ [] := List.ne_nil_of_mem hmem
  rw [if_neg hne]
  by_cases hc : ∃ leg ∈ pos.legs, ¬ leg.status = .Open
  · obtain ⟨lc, hlc, hlcClosed⟩ := hc
    have hflt : pos.open_legs.length < pos.legs.length := by
      unfold ManagedPosition.open_legs
      refine length_filter_lt_of_mem _ pos.legs lc hlc ?_
      simp [PositionLeg.isOpen, hlcClosed]
    rw [if_pos hflt, ← hpart ⟨lc, hlc, hlcClosed⟩]
  · push_neg at hc
    have hall : pos.legs.filter PositionLeg.isOpen = pos.legs := by
      refine List.filter_eq_self.mpr ?_
      intro a ha
      simp [PositionLeg.isOpen, hc a ha]
    have hfl : ¬ pos.open_legs.length < pos.legs.length := by
      unfold ManagedPosition.open_legs
      rw [hall]
      exact lt_irrefl _
    rw [if_neg hfl]

/-- Claim C10: `on_fill` with a leg id that matches no currently-open leg
(an unknown id or an already-closed leg) leaves the manager — every leg with
its status and exit fields, the position status, and the held position —
unchanged; in particular a closed leg's `exit_price`, `exit_time` and
`exit_reason` are never overwritten. -/
theorem on_fill_unknown_leg_noop (pm : PositionManager)
    (pos : ManagedPosition) (lid : String) (xp : Int) (xt : Nat)
    (xr : ExitReason)
    (hpos : pm.position = some pos)
    (hno : ∀ leg ∈ pos.legs, leg.status = .Open → leg.leg_id ≠ lid)
    (hopen : ∃ leg ∈ pos.legs, leg.status = .Open)
    (hpart : (∃ leg ∈ pos.legs, ¬ leg.status = .Open) →
      pos.status = .PartiallyClosed)
    (hnc : pos.status ≠ .Closed) :
    onFill pm lid xp xt xr = pm := by
  unfold onFill
  rw [hpos]
  simp only [close_leg_no_match pos lid xp xt xr hno hopen hpart]
  rw [if_neg hnc, ← hpos]

/-- Witness for C10: re-sending a fill for the already-closed TP leg of a
partially-closed two-leg position changes nothing — the closed leg keeps its
original exit price, time and reason. -/
theorem on_fill_unknown_leg_noop_witness :
    onFill
      { config := {}
        position := some
          { position_id := "q"
            symbol := "TX"
            sub_symbol := "TXF"
            direction := .Buy
            total_quantity := 4
            entry_price := 20000
            entry_time := 3
            status := .PartiallyClosed
            legs := [{ leg_id := "q-TP"
                       leg_type := .TAKE_PROFIT
                       quantity := 2
                       exit_rule := { stop_loss_price := some 19950 }
                       status := .Closed
                       exit_price := some 20500
                       exit_time := some 5
                       exit_reason := some .TAKE_PROFIT },
                     { leg_id := "q-TS"
                       leg_type := .TRAILING_STOP
                       quantity := 2
                       exit_rule := { stop_loss_price := some 19950 } }] } }
      "q-TP" 11111 8 .STOP_LOSS
      = { config := {}
          position := some
            { position_id := "q"
              symbol := "TX"
              sub_symbol := "TXF"
              direction := .Buy
              total_quantity := 4
              entry_price := 20000
              entry_time := 3
              status := .PartiallyClosed
              legs := [{ leg_id := "q-TP"
                         leg_type := .TAKE_PROFIT
                         quantity := 2
                         exit_rule := { stop_loss_price := some 19950 }
                         status := .Closed
                         exit_price := some 20500
                         exit_time := some 5
                         exit_reason := some .TAKE_PROFIT },
                       { leg_id := "q-TS"
                         leg_type := .TRAILING_STOP
                         quantity := 2
                         exit_rule := { stop_loss_price := some 19950 } }] } } :=
  on_fill_unknown_leg_noop _ _ "q-TP" 11111 8 .STOP_LOSS rfl
    (by decide) (by decide) (fun _ => rfl) (by decide)

/-- Directional order on optional trailing stops: for long, the new stop is
at least the old one; for short, at most; a stop never disappears. -/
def stopMono (is_long : Bool) : Option Int → Option Int → Prop
  | none, _ => True
  | some _, none => False
  | some b, some a => if is_long then b ≤ a else a ≤ b

/-- Relation between a leg before and after one update: once trailing is
active, it stays active and the stop only moves in the favorable
direction. -/
def LegMono (d : Bool) (l l' : PositionLeg) : Prop :=
  l.exit_rule.trailing_stop_active = true →
    l'.exit_rule.trailing_stop_active = true ∧
      stopMono d l.exit_rule.trailing_stop_price l'.exit_rule.trailing_stop_price

theorem stopMono_refl (d : Bool) (x : Option Int) : stopMono d x x := by
  cases x with
  | none => exact trivial
  | some b => cases d <;> simp [stopMono]

theorem stopMono_trans (d : Bool) {x y z : Option Int} :
    stopMono d x y → stopMono d y z → stopMono d x z := by
  intro h1 h2
  cases x with
  | none => exact trivial
  | some b =>
    cases y with
    | none => exact h1.elim
    | some m =>
      cases z with
      | none => exact h2.elim
      | some a =>
        cases d <;> simp [stopMono] at h1 h2 ⊢ <;> omega

theorem LegMono_refl (d : Bool) (l : PositionLeg) : LegMono d l l :=
  fun h => ⟨h, stopMono_refl d _⟩

theorem LegMono_trans (d : Bool) {a b c : PositionLeg} :
    LegMono d a b → LegMono d b c → LegMono d a c := by
  intro h1 h2 ha
  obtain ⟨hb, m1⟩ := h1 ha
  obtain ⟨hc, m2⟩ := h2 hb
  exact ⟨hc, stopMono_trans d m1 m2⟩

theorem forall2_refl_legMono (d : Bool) (l : List PositionLeg) :
    List.Forall₂ (LegMono d) l l := by
  induction l with
  | nil => exact List.Forall₂.nil
  | cons x xs ih => exact List.Forall₂.cons (LegMono_refl d x) ih

theorem forall2_trans_legMono (d : Bool) {l1 l2 l3 : List PositionLeg} :
    List.Forall₂ (LegMono d) l1 l2 → List.Forall₂ (LegMono d) l2 l3 →
      List.Forall₂ (LegMono d) l1 l3 := by
  intro h1
  induction h1 generalizing l3 with
  | nil => intro h2; cases h2; exact .nil
  | cons hab h ih =>
    intro h2
    cases h2 with
    | cons hbc h' => exact .cons (LegMono_trans d hab hbc) (ih h')

theorem forall2_map_legMono (d : Bool) (f : PositionLeg → PositionLeg)
    (h : ∀ x, LegMono d x (f x)) (l : List PositionLeg) :
    List.Forall₂ (LegMono d) l (l.map f) := by
  induction l with
  | nil => exact .nil
  | cons x xs ih => exact .cons (h x) ih

theorem forall2_get?_rel {R : PositionLeg → PositionLeg → Prop} :
    ∀ {l l' : List PositionLeg}, List.Forall₂ R l l' →
      ∀ (i : Nat) (a b : PositionLeg),
        l.get? i = some a → l'.get? i = some b → R a b := by
  intro l l' h
  induction h with
  | nil => intro i a b ha _; simp at ha
  | cons hxy htail ih =>
    intro i a b ha hb
    cases i with
    | zero =>
      simp only [List.get?] at ha hb
      cases ha
      cases hb
      exact hxy
    | succ n => exact ih n a b ha hb

theorem guardedStop_mono (d : Bool) (new_stop : Int) (cur : Option Int) :
    stopMono d cur (guardedStop d new_stop cur) := by
  cases cur with
  | none => exact trivial
  | some c =>
    cases d with
    | false =>
      by_cases h : new_stop < c <;> simp [guardedStop, stopMono, h] <;> omega
    | true =>
      by_cases h : c < new_stop <;> simp [guardedStop, stopMono, h] <;> omega

theorem markKeyLevelCross_legMono (d : Bool) (buffer lv : Int)
    (l : List PositionLeg) :
    List.Forall₂ (LegMono d) l (markKeyLevelCross d buffer lv l) := by
  unfold markKeyLevelCross
  apply forall2_map_legMono
  intro x hact
  by_cases hx : x.status = PositionStatus.Open
  · simp only [hx, eq_self_iff_true, if_true, ite_true]
    exact ⟨by trivial, guardedStop_mono d _ _⟩
  · simp only [if_neg hx]
    exact ⟨hact, stopMono_refl d _⟩

theorem crossKeyLevels_legMono (d : Bool) (buffer price : Int) :
    ∀ (levels : List Int) (idx : Nat) (legs : List PositionLeg),
      List.Forall₂ (LegMono d) legs
        (crossKeyLevels d buffer price levels idx legs).2 := by
  intro levels
  induction levels with
  | nil => intro idx legs; exact forall2_refl_legMono d legs
  | cons lv rest ih =>
    intro idx legs
    unfold crossKeyLevels
    repeat' split
    all_goals
      first
        | exact forall2_trans_legMono d
            (markKeyLevelCross_legMono d buffer lv legs) (ih _ _)
        | exact forall2_refl_legMono d legs

theorem stdTrailingUpdate_legMono (cfg : PositionManagerConfig)
    (pos : ManagedPosition) (d : Bool) (price : Int) (leg : PositionLeg) :
    LegMono d leg (stdTrailingUpdate cfg pos d price leg) := by
  intro hact
  simp only [stdTrailingUpdate]
  split
  · exact ⟨hact, stopMono_refl d _⟩
  · rw [if_neg (by simp [hact])]
    repeat' split
    all_goals exact ⟨hact, guardedStop_mono d _ _⟩

/-- Field preservation and leg monotonicity of `_update_trailing_stops`. -/
theorem updateTrailingStops_spec (cfg : PositionManagerConfig)
    (pos : ManagedPosition) (price : Int) :
    (updateTrailingStops cfg pos price).direction = pos.direction ∧
    (updateTrailingStops cfg pos price).is_in_macd_adverse_cross
      = pos.is_in_macd_adverse_cross ∧
    (updateTrailingStops cfg pos price).status = pos.status ∧
    (updateTrailingStops cfg pos price).entry_price = pos.entry_price ∧
    List.Forall₂ (LegMono (isLongDir pos.direction)) pos.legs
      (updateTrailingStops cfg pos price).legs := by
  simp only [updateTrailingStops]
  split
  · rename_i kls heq
    split
    · exact ⟨rfl, rfl, rfl, rfl, crossKeyLevels_legMono _ _ _ _ _ _⟩
    · refine ⟨rfl, rfl, rfl, rfl, ?_⟩
      refine forall2_trans_legMono _
        (crossKeyLevels_legMono (isLongDir pos.direction)
          (pos.metadata.key_level_buffer.getD 10) price
          (kls.drop (pos.metadata.next_key_level_idx.getD 0))
          (pos.metadata.next_key_level_idx.getD 0) pos.legs) ?_
      apply forall2_map_legMono
      intro x hact
      by_cases hx : x.status = PositionStatus.Open ∧
          x.exit_rule.trailing_stop_active = true
      · simp only [if_pos hx]
        exact ⟨hact, guardedStop_mono _ _ _⟩
      · simp only [if_neg hx]
        exact ⟨hact, stopMono_refl _ _⟩
  · refine ⟨rfl, rfl, rfl, rfl, ?_⟩
    apply forall2_map_legMono
    intro x
    by_cases hx : x.status = PositionStatus.Open
    · simp only [if_pos hx]
      exact stdTrailingUpdate_legMono cfg pos _ price x
    · simp only [if_neg hx]
      exact LegMono_refl _ x

/-- Source `_check_macd_fast_stop` never touches the legs, direction, status or
entry price of the position. -/
theorem checkMacdFastStop_fields (cfg : PositionManagerConfig)
    (pos : ManagedPosition) (lastCheck : Option Nat) (price : Int)
    (o : FastOracle) :
    (checkMacdFastStop cfg pos lastCheck price o).2.1.legs = pos.legs ∧
    (checkMacdFastStop cfg pos lastCheck price o).2.1.direction
      = pos.direction ∧
    (checkMacdFastStop cfg pos lastCheck price o).2.1.status = pos.status ∧
    (checkMacdFastStop cfg pos lastCheck price o).2.1.entry_price
      = pos.entry_price := by
  simp only [checkMacdFastStop]
  repeat' split
  all_goals exact ⟨rfl, rfl, rfl, rfl⟩

/-- The fast-stop gate preserves the same fields. -/
theorem fastStopStep_fields (pm : PositionManager) (pos : ManagedPosition)
    (price : Int) (o : Option FastOracle) :
    (fastStopStep pm pos price o).2.1.legs = pos.legs ∧
    (fastStopStep pm pos price o).2.1.direction = pos.direction ∧
    (fastStopStep pm pos price o).2.1.status = pos.status ∧
    (fastStopStep pm pos price o).2.1.entry_price = pos.entry_price := by
  cases o with
  | none => exact ⟨rfl, rfl, rfl, rfl⟩
  | some orc =>
    simp only [fastStopStep]
    split
    · exact checkMacdFastStop_fields pm.config pos
        pm.last_fast_stop_check_kbar_time price orc
    · exact ⟨rfl, rfl, rfl, rfl⟩

/-- One `on_price_update` body step: the position survives, its direction is
unchanged, and every leg satisfies the monotonicity relation. -/
theorem onPriceUpdateWith_mono (pm : PositionManager)
    (pos : ManagedPosition) (price : Int) (o : Option FastOracle)
    (acts : List OrderAction) (pm' : PositionManager)
    (h : onPriceUpdateWith pm pos price o = .ok (acts, pm')) :
    ∃ pos', pm'.position = some pos' ∧ pos'.direction = pos.direction ∧
      List.Forall₂ (LegMono (isLongDir pos.direction)) pos.legs pos'.legs := by
  have htrack : (pos.update_price_tracking price).legs = pos.legs ∧
      (pos.update_price_tracking price).direction = pos.direction :=
    ⟨rfl, rfl⟩
  obtain ⟨hfl, hfd, _, _⟩ :=
    fastStopStep_fields pm (pos.update_price_tracking price) price o
  simp only [onPriceUpdateWith] at h
  split at h
  · simp only [Except.ok.injEq, Prod.mk.injEq] at h
    obtain ⟨_, hpm⟩ := h
    subst hpm
    refine ⟨_, rfl, ?_, ?_⟩
    · rw [hfd]; rfl
    · rw [hfl]
      exact forall2_refl_legMono _ _
  · split at h
    · simp at h
    · simp only [Except.ok.injEq, Prod.mk.injEq] at h
      obtain ⟨_, hpm⟩ := h
      subst hpm
      obtain ⟨hdir2, _, _, _, hf2⟩ := updateTrailingStops_spec pm.config
        (fastStopStep pm (pos.update_price_tracking price) price o).2.1 price
      refine ⟨_, rfl, ?_, ?_⟩
      · rw [hdir2, hfd]; rfl
      · rw [hfd] at hf2
        refine forall2_trans_legMono _ ?_ hf2
        rw [hfl]
        exact forall2_refl_legMono _ _

/-- One full `on_price_update` call preserves the position, its direction,
and per-leg monotonicity. -/
theorem onPriceUpdate_mono (pm : PositionManager) (price : Int)
    (o : Option FastOracle) (acts : List OrderAction)
    (pm' : PositionManager) (pos : ManagedPosition)
    (h : onPriceUpdate pm price o = .ok (acts, pm'))
    (hpos : pm.position = some pos) :
    ∃ pos', pm'.position = some pos' ∧ pos'.direction = pos.direction ∧
      List.Forall₂ (LegMono (isLongDir pos.direction)) pos.legs pos'.legs := by
  simp only [onPriceUpdate] at h
  split at h
  · simp only [Except.ok.injEq, Prod.mk.injEq] at h
    obtain ⟨_, hpm⟩ := h
    subst hpm
    exact ⟨pos, hpos, rfl, forall2_refl_legMono _ _⟩
  · rw [hpos] at h
    exact onPriceUpdateWith_mono pm pos price o acts pm' h

/-- A whole sequence of `on_price_update` calls preserves the position, its
direction, and per-leg monotonicity. -/
theorem runPriceUpdates_mono :
    ∀ (inputs : List (Int × Option FastOracle)) (pm pm' : PositionManager)
      (pos : ManagedPosition),
      runPriceUpdates pm inputs = .ok pm' → pm.position = some pos →
      ∃ pos', pm'.position = some pos' ∧ pos'.direction = pos.direction ∧
        List.Forall₂ (LegMono (isLongDir pos.direction)) pos.legs pos'.legs := by
  intro inputs
  induction inputs with
  | nil =>
    intro pm pm' pos h hpos
    simp only [runPriceUpdates, Except.ok.injEq] at h
    subst h
    exact ⟨pos, hpos, rfl, forall2_refl_legMono _ _⟩
  | cons pr rest ih =>
    intro pm pm' pos h hpos
    obtain ⟨p, o⟩ := pr
    rw [runPriceUpdates] at h
    cases hstep : onPriceUpdate pm p o with
    | error e => rw [hstep] at h; simp at h
    | ok r =>
      obtain ⟨acts, pm1⟩ := r
      rw [hstep] at h
      obtain ⟨pos1, hpos1, hdir1, hf1⟩ :=
        onPriceUpdate_mono pm p o acts pm1 pos hstep hpos
      obtain ⟨pos', hpos', hdir', hf'⟩ := ih pm1 pm' pos1 h hpos1
      refine ⟨pos', hpos', hdir'.trans hdir1, ?_⟩
      rw [hdir1] at hf'
      exact forall2_trans_legMono _ hf1 hf'

/-- Claim C2: across any sequence of `on_price_update` calls (covering the
key-level re-anchoring, the tightening step and the regular update), once a
leg's `trailing_stop_active` is true, the leg stays active and its
`trailing_stop_price` is monotonically non-decreasing for a long position
and non-increasing for a short position. -/
theorem trailing_stop_monotone (pm pm' : PositionManager)
    (inputs : List (Int × Option FastOracle))
    (pos pos' : ManagedPosition) (leg leg' : PositionLeg) (i : Nat)
    (hrun : runPriceUpdates pm inputs = .ok pm')
    (hpos : pm.position = some pos) (hpos' : pm'.position = some pos')
    (hleg : pos.legs.get? i = some leg)
    (hleg' : pos'.legs.get? i = some leg')
    (hact : leg.exit_rule.trailing_stop_active = true) :
    leg'.exit_rule.trailing_stop_active = true ∧
      stopMono (isLongDir pos.direction) leg.exit_rule.trailing_stop_price
        leg'.exit_rule.trailing_stop_price := by
  obtain ⟨pos'', hpos'', _, hf⟩ :=
    runPriceUpdates_mono inputs pm pm' pos hrun hpos
  rw [hpos'] at hpos''
  cases hpos''
  exact forall2_get?_rel hf i leg leg' hleg hleg' hact

/-- Concrete objects for evaluating the trailing-stop machinery. -/
def c2cfg : PositionManagerConfig :=
  { trailing_stop_points := 30, enable_macd_fast_stop := false }

def c2leg : PositionLeg :=
  { leg_id := "w-TS"
    leg_type := .TRAILING_STOP
    quantity := 1
    exit_rule := { trailing_stop_active := true
                   start_trailing_stop_price := some 50
                   trailing_stop_price := some 100 } }

def c2pos : ManagedPosition :=
  { position_id := "w", symbol := "TX", sub_symbol := "TXF",
    direction := .Buy, total_quantity := 1, entry_price := 100,
    entry_time := 0, legs := [c2leg] }

def c2leg' : PositionLeg :=
  { c2leg with exit_rule :=
      { c2leg.exit_rule with trailing_stop_price := some 120 } }

def c2pos' : ManagedPosition :=
  { c2pos with highest_price := 150, lowest_price := 150, legs := [c2leg'] }

def c2pm : PositionManager := { config := c2cfg, position := some c2pos }

def c2pm' : PositionManager := { config := c2cfg, position := some c2pos' }

/-- Witness for C2: a long position with an active trailing leg at stop 100
is updated at price 150 (distance 30); the stop moves up to 120 and the leg
stays active. -/
theorem trailing_stop_monotone_witness :
    c2leg'.exit_rule.trailing_stop_active = true ∧
      stopMono (isLongDir c2pos.direction) c2leg.exit_rule.trailing_stop_price
        c2leg'.exit_rule.trailing_stop_price :=
  trailing_stop_monotone c2pm c2pm' [(150, none)] c2pos c2pos' c2leg c2leg' 0
    rfl rfl rfl rfl rfl rfl

/-- Actions produced by `_check_leg_exit` never carry the fast-stop reason
(they are `SL`/`TS`/`TP` exits). -/
theorem checkLegExit_not_FS (pos : ManagedPosition) (d : Bool) (price : Int)
    (leg : PositionLeg) (a : OrderAction)
    (h : checkLegExit pos d price leg = some a) :
    a.meta_exit_reason ≠ some "FS" := by
  simp only [checkLegExit] at h
  repeat' split at h
  all_goals
    first
      | exact Option.noConfusion h
      | (injection h with h1; subst h1; dsimp only; decide)

/-- When the position is not in the adverse-cross state and the unrealized
loss is smaller than the stop-loss threshold, `_check_macd_fast_stop` never
fires; but the adverse-cross flag ends up set exactly when the check is
fresh (≥ 35 bars, new bar timestamp) and an adverse cross is confirmed. -/
theorem checkMacdFastStop_no_fire (cfg : PositionManagerConfig)
    (pos : ManagedPosition) (lastCheck : Option Nat) (price : Int)
    (o : FastOracle)
    (hflag : pos.is_in_macd_adverse_cross = false)
    (hloss : -(calculate_points cfg.stop_loss_points
        cfg.stop_loss_points_rate (some (pos.entry_price : ℚ))) <
      (if isLongDir pos.direction then price - pos.entry_price
       else pos.entry_price - price)) :
    (checkMacdFastStop cfg pos lastCheck price o).1 = false ∧
    ((checkMacdFastStop cfg pos lastCheck price o).2.1.is_in_macd_adverse_cross
        = true ↔
      (35 ≤ o.kbars_len ∧ lastCheck ≠ some o.latest_time ∧
        (if isLongDir pos.direction then o.is_death_cross
         else o.is_golden_cross) = true)) := by
  simp only [checkMacdFastStop, hflag, Bool.false_eq_true, false_and,
    if_false]
  by_cases h35 : o.kbars_len < 35
  · rw [if_pos h35]
    refine ⟨rfl, ?_⟩
    simp only [hflag, Bool.false_eq_true, false_iff]
    rintro ⟨ha, -, -⟩
    omega
  · rw [if_neg h35]
    by_cases hded : lastCheck = some o.latest_time
    · rw [if_pos hded]
      refine ⟨rfl, ?_⟩
      simp only [hflag, Bool.false_eq_true, false_iff]
      rintro ⟨-, hne, -⟩
      exact hne hded
    · rw [if_neg hded]
      by_cases hadv : (if isLongDir pos.direction then o.is_death_cross
          else o.is_golden_cross) = true
      · rw [if_pos hadv]
        rw [if_neg (fun hc => absurd hc.2 (by omega))]
        refine ⟨rfl, ?_⟩
        constructor
        · intro _
          exact ⟨by omega, hded, hadv⟩
        · intro _
          rfl
      · rw [if_neg hadv]
        by_cases hfav : (if isLongDir pos.direction then o.is_golden_cross
            else o.is_death_cross) = true
        · rw [if_pos hfav]
          refine ⟨rfl, ?_⟩
          constructor
          · intro hc
            simp at hc
          · rintro ⟨-, -, hcross⟩
            exact absurd hcross hadv
        · rw [if_neg hfav]
          refine ⟨rfl, ?_⟩
          simp only [hflag, Bool.false_eq_true, false_iff]
          rintro ⟨-, -, hcross⟩
          exact absurd hcross hadv

/-- Claim C5 (amended): with MACD fast-stop enabled and bars supplied, if
the position is not in the adverse-cross state and its unrealized loss is
smaller than the stop-loss threshold, then `on_price_update` emits no
`FastStop` action for that call; however, the call does not skip the check:
it still evaluates the MACD crosses, and `is_in_macd_adverse_cross` ends up
true exactly when the check is fresh (≥ 35 bars, a new latest-bar
timestamp) and an adverse cross is confirmed on that bar — the flag is
unchanged only when no adverse cross is detected. -/
theorem fast_stop_small_loss_no_fire (pm : PositionManager)
    (pos : ManagedPosition) (price : Int) (orc : FastOracle)
    (acts : List OrderAction) (pm' : PositionManager)
    (hen : pm.config.enable_macd_fast_stop = true)
    (hpos : pm.position = some pos) (hst : pos.status ≠ .Closed)
    (hflag : pos.is_in_macd_adverse_cross = false)
    (hloss : -(calculate_points pm.config.stop_loss_points
        pm.config.stop_loss_points_rate (some (pos.entry_price : ℚ))) <
      (if isLongDir pos.direction then price - pos.entry_price
       else pos.entry_price - price))
    (h : onPriceUpdate pm price (some orc) = .ok (acts, pm')) :
    (∀ a ∈ acts, a.meta_exit_reason ≠ some "FS") ∧
    ∃ pos', pm'.position = some pos' ∧
      (pos'.is_in_macd_adverse_cross = true ↔
        (35 ≤ orc.kbars_len ∧
          pm.last_fast_stop_check_kbar_time ≠ some orc.latest_time ∧
          (if isLongDir pos.direction then orc.is_death_cross
           else orc.is_golden_cross) = true)) := by
  have hasP : hasPosition pm = true := by
    unfold hasPosition
    rw [hpos]
    simp [hst]
  have hTflag : (pos.update_price_tracking price).is_in_macd_adverse_cross
      = false := hflag
  obtain ⟨hnf, hiff⟩ := checkMacdFastStop_no_fire pm.config
    (pos.update_price_tracking price) pm.last_fast_stop_check_kbar_time
    price orc hTflag hloss
  have hfs : fastStopStep pm (pos.update_price_tracking price) price
      (some orc) = checkMacdFastStop pm.config
        (pos.update_price_tracking price)
        pm.last_fast_stop_check_kbar_time price orc := by
    simp [fastStopStep, hen]
  simp only [onPriceUpdate, hasP, Bool.true_eq_false, if_false] at h
  rw [hpos] at h
  simp only [onPriceUpdateWith, hfs, hnf, Bool.false_eq_true, if_false] at h
  by_cases hm : orc.momentum_fire = true
  · rw [if_pos hm] at h
    exact absurd h (by simp)
  · rw [if_neg hm] at h
    simp only [Except.ok.injEq, Prod.mk.injEq] at h
    obtain ⟨hacts, hpm⟩ := h
    subst hpm
    constructor
    · intro a ha
      rw [← hacts] at ha
      obtain ⟨leg, -, hcl⟩ := List.mem_filterMap.mp ha
      exact checkLegExit_not_FS _ _ _ _ _ hcl
    · refine ⟨_, rfl, ?_⟩
      obtain ⟨-, hufl, -, -, -⟩ := updateTrailingStops_spec pm.config
        (checkMacdFastStop pm.config (pos.update_price_tracking price)
          pm.last_fast_stop_check_kbar_time price orc).2.1 price
      rw [hufl]
      exact hiff

/-- Concrete input for the C5 counterexample and witness. -/
def c5cfg : PositionManagerConfig := { stop_loss_points := 50 }

def c5leg : PositionLeg :=
  { leg_id := "f-TS", leg_type := .TRAILING_STOP, quantity := 1,
    exit_rule := {} }

def c5pos : ManagedPosition :=
  { position_id := "f", symbol := "TX", sub_symbol := "TXF",
    direction := .Buy, total_quantity := 1, entry_price := 100,
    entry_time := 0, legs := [c5leg] }

def c5pm : PositionManager := { config := c5cfg, position := some c5pos }

def c5oracle : FastOracle :=
  { kbars_len := 40, latest_time := 5, is_death_cross := true,
    is_golden_cross := false }

def c5posAfter : ManagedPosition :=
  { c5pos with
    highest_price := 100
    lowest_price := 100
    is_in_macd_adverse_cross := true }

def c5pmAfter : PositionManager :=
  { config := c5cfg
    position := some c5posAfter
    last_fast_stop_check_kbar_time := some 5 }

/-- Counterexample for C5 as stated: a long position at entry 100 with zero
unrealized loss (well under the 50-point threshold) and the adverse-cross
flag false sees a confirmed death cross; `on_price_update` emits no action,
but the call is not a skip — it flips `is_in_macd_adverse_cross` from false
to true, contradicting the claim that the flag is left unchanged. -/
theorem fast_stop_flag_change_counterexample :
    onPriceUpdate c5pm 100 (some c5oracle) = .ok ([], c5pmAfter) ∧
    c5pos.is_in_macd_adverse_cross = false ∧
    c5pmAfter.position = some c5posAfter ∧
    c5posAfter.is_in_macd_adverse_cross = true :=
  ⟨rfl, rfl, rfl, rfl⟩

def c5oracle2 : FastOracle :=
  { kbars_len := 40, latest_time := 5, is_death_cross := false,
    is_golden_cross := false }

def c5posAfter2 : ManagedPosition :=
  { c5pos with highest_price := 100, lowest_price := 100 }

def c5pmAfter2 : PositionManager :=
  { config := c5cfg
    position := some c5posAfter2
    last_fast_stop_check_kbar_time := some 5 }

/-- Witness for the amended C5 theorem at a concrete input with no cross:
no `FastStop` action is emitted, and the flag stays false because no
adverse cross is confirmed. -/
theorem fast_stop_small_loss_no_fire_witness :
    (∀ a ∈ ([] : List OrderAction), a.meta_exit_reason ≠ some "FS") ∧
    ∃ pos', c5pmAfter2.position = some pos' ∧
      (pos'.is_in_macd_adverse_cross = true ↔
        (35 ≤ c5oracle2.kbars_len ∧
          c5pm.last_fast_stop_check_kbar_time ≠ some c5oracle2.latest_time ∧
          (if isLongDir c5pos.direction then c5oracle2.is_death_cross
           else c5oracle2.is_golden_cross) = true)) :=
  fast_stop_small_loss_no_fire c5pm c5pos 100 c5oracle2 [] c5pmAfter2
    rfl rfl (by decide) rfl (by decide) rfl

/-- Step 1 of the driver loop in `BacktestEngine._run_single_unit`
(lines 245–277): the deferred signal from the previous bar is repriced to
the current bar's open, fed to `PM.on_signal`, and the resulting orders are
executed by the backtest executor whose market state was set to that open;
each successful fill then overwrites the position's entry price, entry time
and price trackers. -/
def deferredEntryStep (pm : PositionManager) (sig : StrategySignal)
    (bar : KBar) (kbars : List KBar) (symbol sub_symbol : String)
    (slippage_points : Int) (now : Nat) (pid : String) :
    List FillResult × PositionManager :=
  let current_open := pyInt bar.open_
  if hasPosition pm = true then ([], pm)
  else
    let fill_price := current_open
    let sig' := { sig with price := (fill_price : ℚ) }
    let res := onSignal pm sig' kbars symbol sub_symbol now pid
    let fills := res.1.map (executeBacktest slippage_points fill_price now)
    let pm' := fills.foldl (fun acc fill =>
        if fill.success = true ∧ fill.fill_price.isSome then
          match acc.position, fill.fill_price with
          | some pos, some fp =>
            { acc with position := some { pos with
                entry_price := fp
                entry_time := now
                highest_price := fp
                lowest_price := fp } }
          | _, _ => acc
        else acc) res.2
    (fills, pm')

/-- Claim C3: for a deferred entry signal executed at bar `i+1`, the entry
fill price is exactly `bar[i+1].open + slippage_points` for a long entry and
`bar[i+1].open - slippage_points` for a short entry; and the fill depends on
the bar only through its open — two bars with equal opens yield identical
fills, so the fill is not influenced by the bar's close, high or low (later
bars never enter the computation). -/
theorem deferred_entry_fill_price (pm : PositionManager)
    (sig : StrategySignal) (bar : KBar) (kbars : List KBar)
    (symbol sub_symbol : String) (slippage_points : Int) (now : Nat)
    (pid : String)
    (hnp : hasPosition pm = false)
    (hsig : sig.signal_type = .ENTRY_LONG ∨ sig.signal_type = .ENTRY_SHORT) :
    (deferredEntryStep pm sig bar kbars symbol sub_symbol slippage_points
        now pid).1
      = [{ success := true
           fill_price := some (if sig.signal_type = .ENTRY_LONG then
               pyInt bar.open_ + slippage_points
             else pyInt bar.open_ - slippage_points)
           fill_time := now
           fill_quantity := pm.config.total_quantity }] ∧
    (∀ bar2 : KBar, bar2.open_ = bar.open_ →
      (deferredEntryStep pm sig bar2 kbars symbol sub_symbol slippage_points
          now pid).1
        = (deferredEntryStep pm sig bar kbars symbol sub_symbol
            slippage_points now pid).1) := by
  constructor
  · rcases hsig with h1 | h1 <;>
      simp [deferredEntryStep, hnp, onSignal, openPosition, executeBacktest,
        h1, closeActionOf]
  · intro bar2 h2
    simp only [deferredEntryStep, h2]

def c3pm : PositionManager := { config := {} }

def c3sig : StrategySignal :=
  { signal_type := .ENTRY_LONG, symbol := "TX", price := 20080 }

def c3bar : KBar :=
  { time := 1, open_ := 20050, high := 20100, low := 20000, close := 20080 }

/-- Witness for C3: with slippage 2, a long signal deferred to a bar that
opens at 20050 fills at 20052, regardless of the bar's other prices. -/
theorem deferred_entry_fill_price_witness :
    (deferredEntryStep c3pm c3sig c3bar [] "TX" "TXF" 2 1 "e").1
      = [{ success := true
           fill_price := some (if c3sig.signal_type = .ENTRY_LONG then
               pyInt c3bar.open_ + 2
             else pyInt c3bar.open_ - 2)
           fill_time := 1
           fill_quantity := c3pm.config.total_quantity }] ∧
    (∀ bar2 : KBar, bar2.open_ = c3bar.open_ →
      (deferredEntryStep c3pm c3sig bar2 [] "TX" "TXF" 2 1 "e").1
        = (deferredEntryStep c3pm c3sig c3bar [] "TX" "TXF" 2 1 "e").1) :=
  deferred_entry_fill_price c3pm c3sig c3bar [] "TX" "TXF" 2 1 "e" rfl
    (Or.inl rfl)

/-- One session's OHLC, `strategies/orb_strategy.py` `SessionOHLC` (integer
prices). -/
structure SessionOHLC where
  open_ : Int
  high : Int
  low : Int
  close : Int
deriving Repr, DecidableEq

/-- Insert into an ascending list (helper realizing Python's `sorted`). -/
def insSorted (x : Int) : List Int → List Int
  | [] => [x]
  | y :: ys => if x ≤ y then x :: y :: ys else y :: insSorted x ys

/-- Ascending sort of an integer list. -/
def sortInts (l : List Int) : List Int := l.foldr insSorted []

/-- Order-preserving deduplication (realizing Python's `set`, whose order is
irrelevant because the result is always sorted afterwards). -/
def dedupInts (l : List Int) : List Int :=
  l.foldl (fun acc x => if acc.contains x then acc else acc ++ [x]) []

/-- Python `sorted({...})`: ascending list of the distinct elements. -/
def pySortedSet (l : List Int) : List Int := sortInts (dedupInts l)

/-- The slice of the ORB strategy configuration that determines the
take-profit override. -/
structure ORBTpConfig where
  tp_multiplier : ℚ := 2
  use_key_level_tp : Bool := false
  key_level_tp_min_pct : ℚ := 1 / 2
  fixed_tp_points : Int := 0
  use_key_level_trailing : Bool := false
  key_level_min_distance_pct : ℚ := 0
  use_key_level_tp_max : Bool := false
deriving Repr, DecidableEq

/-- Source `ORBStrategy._compute_key_level_tp`: distance to the nearest previous
day/night session level beyond the opening range that is at least `min_tp`
away; `none` if no level qualifies. -/
def computeKeyLevelTp (is_long : Bool)
    (prevDay prevNight : Option SessionOHLC) (orHigh orLow : Option Int)
    (min_tp : Int) : Option Int :=
  let candidates :=
    (match prevDay with
     | some d => [d.high, d.close, d.low]
     | none => []) ++
    (match prevNight with
     | some n => [n.high, n.close, n.low]
     | none => [])
  if is_long then
    let or_high := pyOrInt orHigh 0
    let levels := pySortedSet (candidates.filter fun lv => or_high < lv)
    (levels.find? fun lv => min_tp ≤ lv - or_high).map fun lv => lv - or_high
  else
    let or_low := pyOrInt orLow 999999
    let levels :=
      (pySortedSet (candidates.filter fun lv => lv < or_low)).reverse
    (levels.find? fun lv => min_tp ≤ or_low - lv).map fun lv => or_low - lv

/-- The `key_levels` list collected by `_build_entry_metadata` when
`use_key_level_trailing` is on: previous-day high/close (low/close for
short) and previous-night high (low), kept only beyond the opening range
plus the minimum distance, sorted nearest-to-farthest. -/
def orbKeyLevelsList (cfg : ORBTpConfig) (is_long : Bool)
    (orHigh orLow orRange : Option Int)
    (prevDay prevNight : Option SessionOHLC) : List Int :=
  let or_range := pyOrInt orRange 0
  let min_dist := pyInt (cfg.key_level_min_distance_pct * (or_range : ℚ))
  if is_long then
    let cands :=
      (match prevDay with
       | some d => [d.high, d.close]
       | none => []) ++
      (match prevNight with
       | some n => [n.high]
       | none => [])
    let threshold := pyOrInt orHigh 0 + min_dist
    pySortedSet (cands.filter fun lv => threshold < lv)
  else
    let cands :=
      (match prevDay with
       | some d => [d.low, d.close]
       | none => []) ++
      (match prevNight with
       | some n => [n.low]
       | none => [])
    let threshold := pyOrInt orLow 999999 - min_dist
    (pySortedSet (cands.filter fun lv => lv < threshold)).reverse

/-- The `override_take_profit_points` value placed in the entry-signal
metadata by `ORBStrategy._build_entry_metadata` (`none` = key absent): the
multiplier TP `int(tp_multiplier × OR_Range)` is *replaced* by the key-level
TP distance when that override is active and a level qualifies; then
`fixed_tp_points` enters as a max lower bound when positive; the key is set
only for a positive value; finally, with `use_key_level_trailing` and
`use_key_level_tp_max`, the farthest key level's distance enters a max. -/
def orbOverrideTakeProfitPoints (cfg : ORBTpConfig) (is_long : Bool)
    (orHigh orLow orRange : Option Int)
    (prevDay prevNight : Option SessionOHLC) : Option Int :=
  let or_range := pyOrInt orRange 0
  let tp0 := pyInt (cfg.tp_multiplier * (or_range : ℚ))
  let tp1 :=
    if cfg.use_key_level_tp ∧ 0 < or_range then
      let min_tp := pyInt (cfg.key_level_tp_min_pct * (or_range : ℚ))
      match computeKeyLevelTp is_long prevDay prevNight orHigh orLow min_tp
        with
      | some klTp => klTp
      | none => tp0
    else tp0
  let tp2 :=
    if 0 < cfg.fixed_tp_points then max cfg.fixed_tp_points tp1 else tp1
  let base : Option Int := if 0 < tp2 then some tp2 else none
  if cfg.use_key_level_trailing then
    let key_levels :=
      orbKeyLevelsList cfg is_long orHigh orLow orRange prevDay prevNight
    if key_levels ≠ [] ∧ cfg.use_key_level_tp_max then
      match key_levels.getLast? with
      | some last_lv =>
        let kl_tp_max :=
          if is_long then last_lv - pyOrInt orHigh 0
          else pyOrInt orLow 0 - last_lv
        if 0 < kl_tp_max then some (max (base.getD 0) kl_tp_max) else base
      | none => base
    else base
  else base

/-- Python int of an integer-valued rational is that integer. -/
theorem pyInt_intCast (n : Int) : pyInt ((n : Int) : ℚ) = n := by
  simp only [pyInt, Rat.num_intCast, Rat.den_intCast, Nat.cast_one]
  cases n <;> simp [Int.tdiv, Nat.div_one, Int.negSucc_eq] <;> omega

/-- Evaluation lemma for `orbOverrideTakeProfitPoints` when key-level TP is
active and finds a distance `d`, and key-level trailing is off: the
multiplier TP is replaced by `d`, then maxed with a positive
`fixed_tp_points`, and the key is present only for a positive result. -/
theorem orb_tp_eval (cfg : ORBTpConfig) (is_long : Bool)
    (orHigh orLow orRange : Option Int)
    (prevDay prevNight : Option SessionOHLC) (d : Int)
    (hkl : cfg.use_key_level_trailing = false)
    (hup : cfg.use_key_level_tp = true)
    (hrange : 0 < pyOrInt orRange 0)
    (hfound : computeKeyLevelTp is_long prevDay prevNight orHigh orLow
        (pyInt (cfg.key_level_tp_min_pct * ((pyOrInt orRange 0 : Int) : ℚ)))
      = some d) :
    orbOverrideTakeProfitPoints cfg is_long orHigh orLow orRange prevDay
        prevNight
      = (if 0 < (if 0 < cfg.fixed_tp_points then max cfg.fixed_tp_points d
            else d) then
          some (if 0 < cfg.fixed_tp_points then max cfg.fixed_tp_points d
            else d)
         else none) := by
  simp only [orbOverrideTakeProfitPoints]
  rw [if_pos (show cfg.use_key_level_tp = true ∧ 0 < pyOrInt orRange 0 from
    ⟨hup, hrange⟩)]
  rw [hfound]
  rw [if_neg (show ¬ (cfg.use_key_level_trailing = true) by simp [hkl])]

def c6cfg : ORBTpConfig :=
  { tp_multiplier := 2, use_key_level_tp := true,
    key_level_tp_min_pct := 1 / 2, fixed_tp_points := 0,
    use_key_level_trailing := false, key_level_min_distance_pct := 0,
    use_key_level_tp_max := false }

def c6prevDay : SessionOHLC :=
  { open_ := 210, high := 260, low := 150, close := 255 }

/-- At the concrete counterexample input, the nearest qualifying key level
(previous-day close 255, 55 points above `OR_High = 200`, past the minimum
`int(0.5 × 100) = 50`) yields distance 55. -/
theorem c6_key_level_tp_eval :
    computeKeyLevelTp true (some c6prevDay) none (some 200) (some 100)
        (pyInt (c6cfg.key_level_tp_min_pct
          * ((pyOrInt (some 100) 0 : Int) : ℚ)))
      = some 55 := by
  have h1 : c6cfg.key_level_tp_min_pct * ((pyOrInt (some 100) 0 : Int) : ℚ)
      = ((50 : Int) : ℚ) := by
    norm_num [c6cfg, pyOrInt]
  rw [h1, pyInt_intCast]
  decide

/-- Counterexample for C6 as stated: with OR = [100, 200] (range 100),
`tp_multiplier = 2.0` (multiplier TP `int(2.0 × 100) = 200`), key-level TP
active with minimum distance 50, and previous-day close 255 / high 260, the
nearest qualifying key-level distance is 55 — and the emitted override is
55, not `max(fixed, 55, 200) = 200`: the key-level distance replaces the
multiplier value instead of being maxed with it. -/
theorem orb_tp_counterexample :
    orbOverrideTakeProfitPoints c6cfg true (some 200) (some 100) (some 100)
        (some c6prevDay) none = some 55 ∧
    pyInt ((2 : ℚ) * (100 : ℚ)) = 200 ∧
    (55 : Int) ≠ max 200 55 := by
  refine ⟨?_, ?_, by decide⟩
  · rw [orb_tp_eval c6cfg true (some 200) (some 100) (some 100)
      (some c6prevDay) none 55 rfl rfl (by decide) c6_key_level_tp_eval]
    decide
  · have h2 : (2 : ℚ) * (100 : ℚ) = ((200 : Int) : ℚ) := by norm_num
    rw [h2, pyInt_intCast]

/-- Base take-profit (no key-level-max extension): the code's
fixed-then-value form agrees with folding the active fixed value into a
max. -/
theorem tp_base_spec (f D : Int) :
    (if 0 < (if 0 < f then max f D else D) then
      some (if 0 < f then max f D else D)
    else none)
    = (if 0 < ((if 0 < f then [f] else []).foldl max D) then
        some ((if 0 < f then [f] else []).foldl max D)
      else none) := by
  by_cases hf : 0 < f
  · rw [if_pos hf, if_pos hf]
    simp only [List.foldl_cons, List.foldl_nil]
    rw [max_comm f D]
  · rw [if_neg hf, if_neg hf]
    rfl

/-- Key-level-max leaf with a positive fixed TP: the code's clamped
`base.getD 0` collapses into a plain three-way max. -/
theorem tpmax_leaf_fix (f D k : Int) (hf : 0 < f) (hk : 0 < k) :
    some (max ((if 0 < max f D then some (max f D) else none).getD 0) k)
      = (if 0 < max (max D f) k then some (max (max D f) k) else none) := by
  rw [if_pos (lt_of_lt_of_le hf (le_max_left f D)), Option.getD_some,
    if_pos (lt_of_lt_of_le hk (le_max_right (max D f) k)), max_comm f D]

/-- Key-level-max leaf without a fixed TP: because the key-level-max
distance is positive, the clamp at zero is absorbed by the max. -/
theorem tpmax_leaf_nofix (D k : Int) (hk : 0 < k) :
    some (max ((if 0 < D then some D else none).getD 0) k)
      = (if 0 < max D k then some (max D k) else none) := by
  rw [if_pos (lt_of_lt_of_le hk (le_max_right D k))]
  by_cases hD0 : 0 < D
  · rw [if_pos hD0, Option.getD_some]
  · rw [if_neg hD0, Option.getD_none]
    have h2 : max D k = k :=
      max_eq_right (le_of_lt (lt_of_le_of_lt (le_of_not_lt hD0) hk))
    rw [h2, max_eq_right (le_of_lt hk)]

/-- The tail of the take-profit override computation when the level list
has no last element: the key-level-max extension cannot apply (the list is
empty), and every branch reduces to the base value, which equals the
fold-of-active-values form. -/
theorem orb_tp_tail_none (trailing tpmax : Bool) (f D : Int) (Kne : Prop)
    [Decidable Kne] (kl : Int → Int) (hK : ¬ Kne) :
    (if trailing then
      (if Kne ∧ tpmax then
        (if 0 < (if 0 < f then max f D else D) then
          some (if 0 < f then max f D else D)
        else none)
      else
        (if 0 < (if 0 < f then max f D else D) then
          some (if 0 < f then max f D else D)
        else none))
    else
      (if 0 < (if 0 < f then max f D else D) then
        some (if 0 < f then max f D else D)
      else none))
    = (if 0 < (((if 0 < f then [f] else []) ++
          (if trailing ∧ Kne ∧ tpmax ∧
              0 < kl ((none : Option Int).getD 0) then
            [kl ((none : Option Int).getD 0)]
          else [])).foldl max D) then
        some (((if 0 < f then [f] else []) ++
          (if trailing ∧ Kne ∧ tpmax ∧
              0 < kl ((none : Option Int).getD 0) then
            [kl ((none : Option Int).getD 0)]
          else [])).foldl max D)
      else none) := by
  rw [if_neg (show ¬ (trailing = true ∧ Kne ∧ tpmax = true ∧
    0 < kl ((none : Option Int).getD 0)) from fun h => hK h.2.1)]
  simp only [List.append_nil]
  by_cases htr : trailing = true
  · rw [if_pos htr,
      if_neg (show ¬ (Kne ∧ tpmax = true) from fun h => hK h.1)]
    exact tp_base_spec f D
  · rw [if_neg htr]
    exact tp_base_spec f D

/-- The tail of the take-profit override computation when the level list
has a last element `l`: the code's branch structure equals the
fold-of-active-values form. -/
theorem orb_tp_tail_some (trailing tpmax : Bool) (f D l : Int) (Kne : Prop)
    [Decidable Kne] (kl : Int → Int) :
    (if trailing then
      (if Kne ∧ tpmax then
        (if 0 < kl l then
          some (max ((if 0 < (if 0 < f then max f D else D) then
              some (if 0 < f then max f D else D)
            else none).getD 0) (kl l))
        else
          (if 0 < (if 0 < f then max f D else D) then
            some (if 0 < f then max f D else D)
          else none))
      else
        (if 0 < (if 0 < f then max f D else D) then
          some (if 0 < f then max f D else D)
        else none))
    else
      (if 0 < (if 0 < f then max f D else D) then
        some (if 0 < f then max f D else D)
      else none))
    = (if 0 < (((if 0 < f then [f] else []) ++
          (if trailing ∧ Kne ∧ tpmax ∧ 0 < kl l then [kl l]
          else [])).foldl max D) then
        some (((if 0 < f then [f] else []) ++
          (if trailing ∧ Kne ∧ tpmax ∧ 0 < kl l then [kl l]
          else [])).foldl max D)
      else none) := by
  by_cases hkA : trailing = true ∧ Kne ∧ tpmax = true ∧ 0 < kl l
  · obtain ⟨htr, hK, htm, hkm⟩ := hkA
    rw [if_pos htr,
      if_pos (show Kne ∧ tpmax = true from ⟨hK, htm⟩),
      if_pos (show trailing = true ∧ Kne ∧ tpmax = true ∧ 0 < kl l from
        ⟨htr, hK, htm, hkm⟩),
      if_pos hkm]
    by_cases hf : 0 < f
    · rw [if_pos hf, if_pos hf]
      simp only [List.cons_append, List.nil_append, List.foldl_cons,
        List.foldl_nil]
      exact tpmax_leaf_fix f D (kl l) hf hkm
    · rw [if_neg hf, if_neg hf]
      simp only [List.nil_append, List.foldl_cons, List.foldl_nil]
      exact tpmax_leaf_nofix D (kl l) hkm
  · rw [if_neg hkA]
    simp only [List.append_nil]
    by_cases htr : trailing = true
    · rw [if_pos htr]
      by_cases hKt : Kne ∧ tpmax = true
      · rw [if_pos hKt,
          if_neg (show ¬ 0 < kl l from fun hc =>
            hkA ⟨htr, hKt.1, hKt.2, hc⟩)]
        exact tp_base_spec f D
      · rw [if_neg hKt]
        exact tp_base_spec f D
    · rw [if_neg htr]
      exact tp_base_spec f D

/-- Definition written from the amended claim's words (not from the
source), for comparison with `orbOverrideTakeProfitPoints`: the take-profit
override is the maximum of the active override values — `fixed_tp_points`
when positive; the farthest-key-level distance when key-level trailing,
`use_key_level_tp_max` and a nonempty level list make it apply with a
positive distance; and `D`, the key-level take-profit distance when
`use_key_level_tp` is active with a positive OR range and a qualifying
level exists, and `int(tp_multiplier × OR_Range)` otherwise — present
exactly when that maximum is positive. -/
def orbTpSpecMax (cfg : ORBTpConfig) (is_long : Bool)
    (orHigh orLow orRange : Option Int)
    (prevDay prevNight : Option SessionOHLC) : Option Int :=
  let or_range := pyOrInt orRange 0
  let D :=
    if cfg.use_key_level_tp ∧ 0 < or_range then
      (computeKeyLevelTp is_long prevDay prevNight orHigh orLow
        (pyInt (cfg.key_level_tp_min_pct * (or_range : ℚ)))).getD
        (pyInt (cfg.tp_multiplier * (or_range : ℚ)))
    else
      pyInt (cfg.tp_multiplier * (or_range : ℚ))
  let key_levels :=
    orbKeyLevelsList cfg is_long orHigh orLow orRange prevDay prevNight
  let kl_tp_max :=
    if is_long then key_levels.getLast?.getD 0 - pyOrInt orHigh 0
    else pyOrInt orLow 0 - key_levels.getLast?.getD 0
  let S := ((if 0 < cfg.fixed_tp_points then [cfg.fixed_tp_points] else [])
      ++ (if cfg.use_key_level_trailing ∧ key_levels ≠ [] ∧
            cfg.use_key_level_tp_max ∧ 0 < kl_tp_max then [kl_tp_max]
          else [])).foldl max D
  if 0 < S then some S else none

/-- Claim C6 (amended): for every ORB entry signal — all configurations and
inputs — the `override_take_profit_points` metadata value equals the
maximum of the active override values: `fixed_tp_points` when positive, the
farthest-key-level distance when `use_key_level_tp_max` applies (key-level
trailing on, nonempty level list, positive distance), and `D`, where `D` is
the key-level take-profit distance when `use_key_level_tp` is active with a
positive OR range and a qualifying level exists, and
`int(tp_multiplier × OR_Range)` otherwise; the key is present exactly when
this maximum is positive.  In particular a found key-level distance
replaces the multiplier term instead of entering the max with it. -/
theorem orb_tp_matches_max_spec (cfg : ORBTpConfig) (is_long : Bool)
    (orHigh orLow orRange : Option Int)
    (prevDay prevNight : Option SessionOHLC) :
    orbOverrideTakeProfitPoints cfg is_long orHigh orLow orRange prevDay
        prevNight
      = orbTpSpecMax cfg is_long orHigh orLow orRange prevDay prevNight := by
  simp only [orbOverrideTakeProfitPoints, orbTpSpecMax]
  by_cases hup : cfg.use_key_level_tp = true ∧ 0 < pyOrInt orRange 0
  · rw [if_pos hup, if_pos hup]
    cases hD : computeKeyLevelTp is_long prevDay prevNight orHigh orLow
        (pyInt (cfg.key_level_tp_min_pct * ((pyOrInt orRange 0 : Int) : ℚ)))
      with
    | none =>
      cases hLast : (orbKeyLevelsList cfg is_long orHigh orLow orRange
          prevDay prevNight).getLast? with
      | none =>
        exact orb_tp_tail_none cfg.use_key_level_trailing
          cfg.use_key_level_tp_max cfg.fixed_tp_points _
          (orbKeyLevelsList cfg is_long orHigh orLow orRange prevDay
            prevNight ≠ [])
          (fun l => if is_long then l - pyOrInt orHigh 0
            else pyOrInt orLow 0 - l)
          (fun hne => by
            have h1 := List.getLast?_isSome.mpr hne
            rw [hLast] at h1
            simp at h1)
      | some lv =>
        exact orb_tp_tail_some cfg.use_key_level_trailing
          cfg.use_key_level_tp_max cfg.fixed_tp_points _ lv
          (orbKeyLevelsList cfg is_long orHigh orLow orRange prevDay
            prevNight ≠ [])
          (fun l => if is_long then l - pyOrInt orHigh 0
            else pyOrInt orLow 0 - l)
    | some dv =>
      cases hLast : (orbKeyLevelsList cfg is_long orHigh orLow orRange
          prevDay prevNight).getLast? with
      | none =>
        exact orb_tp_tail_none cfg.use_key_level_trailing
          cfg.use_key_level_tp_max cfg.fixed_tp_points dv
          (orbKeyLevelsList cfg is_long orHigh orLow orRange prevDay
            prevNight ≠ [])
          (fun l => if is_long then l - pyOrInt orHigh 0
            else pyOrInt orLow 0 - l)
          (fun hne => by
            have h1 := List.getLast?_isSome.mpr hne
            rw [hLast] at h1
            simp at h1)
      | some lv =>
        exact orb_tp_tail_some cfg.use_key_level_trailing
          cfg.use_key_level_tp_max cfg.fixed_tp_points dv lv
          (orbKeyLevelsList cfg is_long orHigh orLow orRange prevDay
            prevNight ≠ [])
          (fun l => if is_long then l - pyOrInt orHigh 0
            else pyOrInt orLow 0 - l)
  · rw [if_neg hup, if_neg hup]
    cases hLast : (orbKeyLevelsList cfg is_long orHigh orLow orRange
        prevDay prevNight).getLast? with
    | none =>
      exact orb_tp_tail_none cfg.use_key_level_trailing
        cfg.use_key_level_tp_max cfg.fixed_tp_points _
        (orbKeyLevelsList cfg is_long orHigh orLow orRange prevDay
          prevNight ≠ [])
        (fun l => if is_long then l - pyOrInt orHigh 0
          else pyOrInt orLow 0 - l)
        (fun hne => by
          have h1 := List.getLast?_isSome.mpr hne
          rw [hLast] at h1
          simp at h1)
    | some lv =>
      exact orb_tp_tail_some cfg.use_key_level_trailing
        cfg.use_key_level_tp_max cfg.fixed_tp_points _ lv
        (orbKeyLevelsList cfg is_long orHigh orLow orRange prevDay
          prevNight ≠ [])
        (fun l => if is_long then l - pyOrInt orHigh 0
          else pyOrInt orLow 0 - l)

end AutoTrade
